import Mathlib

/-!
Shallow embedding of the E2EE folder-metadata engine of the Nextcloud desktop
client (files src/libsync/foldermetadata.{h,cpp} and
src/libsync/fetchanduploade2eefoldermetadatajob.{h,cpp}).

Modelling conventions, used throughout:
* `QByteArray` values are modelled by the inductive type `Bytes`.  Plain data
  is `Bytes.raw`; the outputs of the cryptographic primitives are modelled as
  injective symbolic constructors (ideal-cipher style): decryption inverts
  encryption exactly when key and nonce match, and fails (returns the empty
  byte array, as the OpenSSL helpers do) otherwise.  Base64 transport
  encoding is lossless in the code paths modelled here and is modelled as
  the identity.
* JSON documents are modelled structurally: `encryptedMetadata` produces a
  `MetaDoc` / `LegacyDoc` value mirroring the exact JSON object layout the
  code builds, and parsing consumes such a value.  QJsonObject key
  iteration order is abstracted by list order; every claim proved below is
  insensitive to it.
* `QSet<QByteArray>` is a duplicate-free `List Bytes` with the QSet
  insert/remove/contains operations; `QHash<QString, FolderUser>` is an
  association list with insert-replace semantics.
* Randomness (`EncryptionHelper::generateRandom`) is passed in explicitly as
  an argument, the standard shallow embedding of nondeterministic fresh-value
  generation.
* The server capability `clientSideEncryptionVersion()` is a small decimal
  double (1.0 / 1.2 / 2.0); it is modelled exactly as an integer number of
  tenths (10 / 12 / 20), which keeps every comparison in the code exact.
-/

namespace E2ee

/-- Model of QByteArray contents.  Symbolic constructors stand for the
outputs of the cryptographic primitives of EncryptionHelper. -/
inductive Bytes where
  /-- plain data bytes -/
  | raw : List Nat → Bytes
  /-- EncryptionHelper::gZipThenEncryptData key plaintextPayload nonce;
      the plaintext of the v2.0 metadata blob is the structured inner
      document, carried by the surrounding `SymCipher` record instead -/
  | gzipEnc : Bytes → Bytes → Bytes
  /-- the GCM authentication tag produced for (key, nonce) -/
  | gcmTag : Bytes → Bytes → Bytes
  /-- EncryptionHelper::encryptStringAsymmetric publicKeyId plaintext -/
  | asymEnc : Nat → Bytes → Bytes
  /-- EncryptionHelper::encryptStringSymmetric (legacy per-file blob):
      key, then the three plaintext JSON fields key/filename/mimetype -/
  | symEnc : Bytes → Bytes → String → String → Bytes
  /-- OCC::calcSha256 digest -/
  | sha256 : Bytes → Bytes
  /-- the legacy metadata-key checksum: SHA-256 over mnemonic,
      sorted encrypted filenames and the metadata key -/
  | metaChecksum : String → List String → Bytes → Bytes
  deriving DecidableEq, Repr

/-- QByteArray::isEmpty; only a raw empty array is empty, a ciphertext,
digest or tag is a nonempty block. -/
def Bytes.isEmpty : Bytes → Bool
  | .raw l => l.isEmpty
  | _ => false

/-- The default-constructed QByteArray. -/
def Bytes.empty : Bytes := .raw []

/-- QByteArray::size; symbolic blocks (digests, ciphertexts, wrapped keys)
are opaque 32-byte blocks in this model. -/
def Bytes.size : Bytes → Nat
  | .raw l => l.length
  | _ => 32

/-- QByteArray(data, n): the first n bytes.  Only ever applied by the code
to raw 16-byte metadata keys; on opaque blocks it is the identity. -/
def Bytes.take (n : Nat) : Bytes → Bytes
  | .raw l => .raw (l.take n)
  | b => b

/-- OCC::calcSha256. -/
def calcSha256 (b : Bytes) : Bytes := .sha256 b

/-- EncryptionHelper::decryptStringAsymmetric with the private key of key
pair `keyId`: inverts `Bytes.asymEnc keyId`, empty on failure, as in
FolderMetadata::decryptDataWithPrivateKey. -/
def decryptDataWithPrivateKey (keyId : Nat) : Bytes → Bytes
  | .asymEnc k d => if k = keyId then d else .raw []
  | _ => .raw []

/-- QSet::insert on a duplicate-free list. -/
def setInsert (b : Bytes) (s : List Bytes) : List Bytes :=
  if b ∈ s then s else b :: s

/-- QSet::remove on a duplicate-free list. -/
def setRemove (b : Bytes) (s : List Bytes) : List Bytes :=
  s.erase b

/-- The three wire-format generations plus the undefined sentinel.
C++ enum values: VersionUndefined = -1, Version1 = 0, Version1_2 = 1,
Version2_0 = 2. -/
inductive MetadataVersion where
  | versionUndefined
  | version1
  | version1_2
  | version2_0
  deriving DecidableEq, Repr

/-- The integer value of the C++ enum, used for every comparison. -/
def MetadataVersion.toInt : MetadataVersion → Int
  | .versionUndefined => -1
  | .version1 => 0
  | .version1_2 => 1
  | .version2_0 => 2

/-- Comparison of metadata versions as done on the C++ enum. -/
def MetadataVersion.lt (a b : MetadataVersion) : Bool :=
  a.toInt < b.toInt

/-- Non-strict comparison of metadata versions. -/
def MetadataVersion.le (a b : MetadataVersion) : Bool :=
  a.toInt ≤ b.toInt

/-- FolderMetadata::latestSupportedMetadataVersion; the double from the
server capability is modelled in tenths (2.0 = 20, 1.2 = 12, 1.0 = 10). -/
def latestSupportedMetadataVersion (versionFromApi : Nat) : MetadataVersion :=
  if versionFromApi ≥ 20 then .version2_0
  else if versionFromApi ≥ 12 then .version1_2
  else if versionFromApi ≥ 10 then .version1
  else .versionUndefined

/-- QString::number(versionFromApi, 'g', 2) on the capability double in
tenths: 20 prints "2", 12 prints "1.2", 10 prints "1". -/
def capabilityVersionString (versionFromApi : Nat) : String :=
  if versionFromApi % 10 = 0 then toString (versionFromApi / 10)
  else toString (versionFromApi / 10) ++ "." ++ toString (versionFromApi % 10)

/-- The per-account state the metadata engine reads: dav user id, the
account RSA key pair (modelled by one key-pair id), the optional
certificate public key (`none` models a null certificate or a null public
key), the E2EE capability version in tenths, the mnemonic with spaces
already removed, and the legacy checksum-validation escape hatch. -/
structure Account where
  davUser : String
  keyId : Nat
  certificate : Option Nat
  capabilityVersion : Nat
  mnemonic : String
  shouldSkipE2eeMetadataChecksumValidation : Bool
  deriving DecidableEq, Repr

/-- FolderMetadata::EncryptedFile. -/
structure EncryptedFile where
  encryptionKey : Bytes := .raw []
  mimetype : String := ""
  initializationVector : Bytes := .raw []
  authenticationTag : Bytes := .raw []
  encryptedFilename : String := ""
  originalFilename : String := ""
  deriving DecidableEq, Repr

/-- FolderMetadata::FolderUser.  The certificate PEM serialization is
bijective, so the stored PEM is modelled by the certificate public-key id
itself (`none` models an unparsable certificate). -/
structure FolderUser where
  userId : String := ""
  certificatePem : Option Nat := none
  encryptedMetadataKey : Bytes := .raw []
  encryptedFiledropKey : Bytes := .raw []
  deriving DecidableEq, Repr

/-- QHash / QJsonObject insert-assignment `h[k] = v`: replace or append. -/
def assocInsert {α : Type} (k : String) (v : α) :
    List (String × α) → List (String × α)
  | [] => [(k, v)]
  | (k0, v0) :: rest =>
    if k0 = k then (k, v) :: rest else (k0, v0) :: assocInsert k v rest

/-- QHash::remove. -/
def assocRemove {α : Type} (k : String) :
    List (String × α) → List (String × α)
  | [] => []
  | (k0, v0) :: rest =>
    if k0 = k then assocRemove k rest else (k0, v0) :: assocRemove k rest

/-- QHash::value / QJsonObject::value lookup. -/
def assocLookup {α : Type} (k : String) : List (String × α) → Option α
  | [] => none
  | (k0, v0) :: rest => if k0 = k then some v0 else assocLookup k rest

/-- One entry of the legacy "files" (or "filedrop") JSON object: the
symmetrically encrypted key/filename/mimetype blob plus IV and tag. -/
structure LegacyFileJson where
  encrypted : Bytes := .raw []
  initializationVector : Bytes := .raw []
  authenticationTag : Bytes := .raw []
  deriving DecidableEq, Repr

/-- The in-memory state of OCC::FolderMetadata (the fields of
foldermetadata.h that the modelled member functions touch).  The legacy
`_fileDrop` QJsonObject is carried as an association list and passed
through opaquely, exactly as the code does. -/
structure FolderMetadata where
  isRootEncryptedFolder : Bool
  metadataKeyForEncryption : Bytes := .raw []
  metadataKeyForDecryption : Bytes := .raw []
  keyChecksums : List Bytes := []
  metadataNonce : Bytes := .raw []
  fileDropCipherTextEncryptedAndBase64 : Bytes := .raw []
  fileDropMetadataAuthenticationTag : Bytes := .raw []
  fileDropMetadataNonceBase64 : Bytes := .raw []
  fileDropKey : Bytes := .raw []
  fileDrop : List (String × LegacyFileJson) := []
  folderUsers : List (String × FolderUser) := []
  metadataKeys : List (Nat × Bytes) := []
  existingMetadataVersion : MetadataVersion := .versionUndefined
  encryptedMetadataVersion : MetadataVersion := .versionUndefined
  files : List EncryptedFile := []
  isMetadataValid : Bool := false
  deriving DecidableEq, Repr

/-- FolderMetadata::isValid: note that it tests key availability
(`_metadataKeyForDecryption` / legacy `_metadataKeys`), not the internal
`_isMetadataValid` flag. -/
def FolderMetadata.isValid (m : FolderMetadata) : Bool :=
  !m.metadataKeyForDecryption.isEmpty || !m.metadataKeys.isEmpty

/-- FolderMetadata::verifyMetadataKey. -/
def FolderMetadata.verifyMetadataKey (m : FolderMetadata) (metadataKey : Bytes) : Bool :=
  if m.existingMetadataVersion.lt .version2_0 then true
  else if metadataKey.isEmpty || metadataKey.size < 16 then false
  else
    let metadataKeyLimitedLength := metadataKey.take 16
    m.keyChecksums.contains (calcSha256 metadataKeyLimitedLength) || m.keyChecksums.isEmpty

/-- FolderMetadata::createNewMetadataKeyForEncryption; `freshKey` is the
value returned by EncryptionHelper::generateRandom(metadataKeySize). -/
def FolderMetadata.createNewMetadataKeyForEncryption (m : FolderMetadata)
    (freshKey : Bytes) : FolderMetadata :=
  if !m.isRootEncryptedFolder then m
  else
    let m1 :=
      if !m.metadataKeyForEncryption.isEmpty then
        { m with keyChecksums := setRemove (calcSha256 m.metadataKeyForEncryption) m.keyChecksums }
      else m
    let m2 := { m1 with metadataKeyForEncryption := freshKey }
    if !freshKey.isEmpty then
      { m2 with keyChecksums := setInsert (calcSha256 freshKey) m2.keyChecksums }
    else m2

/-- FolderMetadata::encryptDataWithPublicKey (RSA-OAEP wrap). -/
def encryptDataWithPublicKey (data : Bytes) (publicKeyId : Nat) : Bytes :=
  .asymEnc publicKeyId data

/-- FolderMetadata::updateUsersEncryptedMetadataKey: re-wrap the current
metadata key for every folder user whose certificate parses. -/
def FolderMetadata.updateUsersEncryptedMetadataKey (m : FolderMetadata) : FolderMetadata :=
  if !m.isRootEncryptedFolder then m
  else if m.metadataKeyForEncryption.isEmpty then m
  else
    { m with
      folderUsers := m.folderUsers.map fun (k, folderUser) =>
        match folderUser.certificatePem with
        | none => (k, folderUser)
        | some pubKey =>
          (k, { folderUser with
                encryptedMetadataKey := encryptDataWithPublicKey m.metadataKeyForEncryption pubKey }) }

/-- FolderMetadata::addUser; `certificate` is `none` for a null certificate
or a certificate with a null public key. -/
def FolderMetadata.addUser (m : FolderMetadata) (userId : String)
    (certificate : Option Nat) (freshKey : Bytes) : Bool × FolderMetadata :=
  if !m.isRootEncryptedFolder then (false, m)
  else
    match certificate with
    | none => (false, m)
    | some certificatePublicKey =>
      if userId = "" then (false, m)
      else
        let m1 := m.createNewMetadataKeyForEncryption freshKey
        let newFolderUser : FolderUser :=
          { userId := userId
            certificatePem := some certificatePublicKey
            encryptedMetadataKey :=
              encryptDataWithPublicKey m1.metadataKeyForEncryption certificatePublicKey }
        let m2 := { m1 with folderUsers := assocInsert userId newFolderUser m1.folderUsers }
        (true, m2.updateUsersEncryptedMetadataKey)

/-- FolderMetadata::removeUser. -/
def FolderMetadata.removeUser (m : FolderMetadata) (userId : String)
    (freshKey : Bytes) : Bool × FolderMetadata :=
  if !m.isRootEncryptedFolder then (false, m)
  else if userId = "" then (false, m)
  else
    let m1 := m.createNewMetadataKeyForEncryption freshKey
    let m2 := { m1 with folderUsers := assocRemove userId m1.folderUsers }
    (true, m2.updateUsersEncryptedMetadataKey)

/-- The per-file JSON object built by FolderMetadata::convertFileToJsonObject
(keys: key, filename, mimetype, initializationVector, authenticationTag). -/
structure FileJson where
  key : Bytes
  filename : String
  mimetype : String
  initializationVector : Bytes
  authenticationTag : Bytes
  deriving DecidableEq, Repr

/-- The inner (encrypted) cipherText JSON document of a v2.0 metadata blob:
files, folders, and (on root folders) keyChecksums.  An absent key is the
empty list. -/
structure CipherPayload where
  files : List (String × FileJson)
  folders : List (String × String)
  keyChecksums : List Bytes
  deriving DecidableEq, Repr

/-- A symmetric AES-GCM+gzip ciphertext of the inner document: records the
key and nonce it was produced with; decryption authenticates both (the GCM
tag check) and yields the payload only on a match. -/
structure SymCipher where
  key : Bytes
  nonce : Bytes
  plain : CipherPayload
  deriving DecidableEq, Repr

/-- EncryptionHelper::decryptThenUnGzipData: on key/nonce (auth tag)
mismatch the helper returns an empty QByteArray; `none` models that. -/
def decryptThenUnGzipData (key : Bytes) (cipher : SymCipher) (nonce : Bytes) :
    Option CipherPayload :=
  if cipher.key = key ∧ cipher.nonce = nonce then some cipher.plain else none

/-- The "metadata" object of a v2.0 document:
ciphertext / nonce / authenticationTag. -/
structure MetadataEnvelope where
  cipher : SymCipher
  nonce : Bytes
  authenticationTag : Bytes
  deriving DecidableEq, Repr

/-- The "filedrop" object of a v2.0 document. -/
structure FileDropJson where
  cipherText : Bytes
  nonce : Bytes
  authenticationTag : Bytes
  deriving DecidableEq, Repr

/-- A v2.0 metadata document as built by FolderMetadata::encryptedMetadata:
metadata object, top-level version string, users array (absent = empty) and
optional filedrop object.  The users array entries are exactly the four
FolderUser fields. -/
structure MetaDoc where
  metadata : MetadataEnvelope
  version : String
  users : List FolderUser
  filedrop : Option FileDropJson
  deriving DecidableEq, Repr

/-- The legacy (v1 / v1.2) "metadata" object.  `metadataKeys` is the v1.0
per-index key map (absent = empty list). -/
structure LegacyMetadataObject where
  version : String
  metadataKey : Bytes
  checksum : Bytes
  metadataKeys : List (String × Bytes) := []
  sharing : Bytes := .raw []
  deriving DecidableEq, Repr

/-- A legacy metadata document as built by
FolderMetadata::encryptedMetadataLegacy. -/
structure LegacyDoc where
  metadata : LegacyMetadataObject
  files : List (String × LegacyFileJson)
  filedrop : List (String × LegacyFileJson)
  deriving DecidableEq, Repr

/-- The serialized output of FolderMetadata::encryptedMetadata: either a
v2.0 document or a legacy document (the C++ returns the JSON text; an empty
QByteArray result is modelled by `none` at the call sites). -/
inductive MetaOutput where
  | v2 : MetaDoc → MetaOutput
  | legacy : LegacyDoc → MetaOutput
  deriving DecidableEq, Repr

/-- FolderMetadata::computeMetadataKeyChecksum: SHA-256 over the spaceless
mnemonic, the encrypted filenames sorted ascending, and the key. -/
def computeMetadataKeyChecksum (acct : Account) (files : List EncryptedFile)
    (metadataKey : Bytes) : Bytes :=
  .metaChecksum acct.mnemonic
    ((files.map (·.encryptedFilename)).mergeSort (fun a b => decide (a ≤ b)))
    metadataKey

/-- FolderMetadata::checkMetadataKeyChecksum. -/
def checkMetadataKeyChecksum (acct : Account) (files : List EncryptedFile)
    (metadataKey metadataKeyChecksum : Bytes) : Bool :=
  computeMetadataKeyChecksum acct files metadataKey = metadataKeyChecksum

/-- FolderMetadata::convertFileToJsonObject (the metadataKey parameter of
the C++ signature is unused there). -/
def convertFileToJsonObject (f : EncryptedFile) : FileJson :=
  { key := f.encryptionKey
    filename := f.originalFilename
    mimetype := f.mimetype
    initializationVector := f.initializationVector
    authenticationTag := f.authenticationTag }

/-- The directory test of FolderMetadata::encryptedMetadata. -/
def isDirectoryMimetype (f : EncryptedFile) : Bool :=
  f.mimetype = "" || f.mimetype = "inode/directory" || f.mimetype = "httpd/unix-directory"

/-- The files/folders loop of FolderMetadata::encryptedMetadata: each file
record goes into the "folders" object (as an encrypted-name to
original-name pair) when its mimetype denotes a directory, and into the
"files" object otherwise.  The `file.isEmpty()` early return of the C++ is
dead code (the five-key object is never empty) and has no counterpart. -/
def buildFilesFolders (files : List EncryptedFile) :
    List (String × FileJson) × List (String × String) :=
  files.foldl
    (fun acc f =>
      if isDirectoryMimetype f then
        (acc.1, assocInsert f.encryptedFilename f.originalFilename acc.2)
      else
        (assocInsert f.encryptedFilename (convertFileToJsonObject f) acc.1, acc.2))
    ([], [])

/-- FolderMetadata::encryptedMetadataLegacy.  The repeated toBase64 /
fromBase64 steps are lossless and modelled as the identity. -/
def FolderMetadata.encryptedMetadataLegacy (m : FolderMetadata) (acct : Account) :
    Option MetaOutput × FolderMetadata :=
  if m.metadataKeyForEncryption.isEmpty then (none, m)
  else
    let version := acct.capabilityVersion
    let encryptedMetadataKey := encryptDataWithPublicKey m.metadataKeyForEncryption acct.keyId
    let metadata : LegacyMetadataObject :=
      { version := capabilityVersionString version
        metadataKey := encryptedMetadataKey
        checksum := computeMetadataKeyChecksum acct m.files encryptedMetadataKey }
    let files := m.files.foldl
      (fun acc f =>
        let entry : LegacyFileJson :=
          { encrypted := .symEnc m.metadataKeyForEncryption f.encryptionKey f.originalFilename f.mimetype
            initializationVector := f.initializationVector
            authenticationTag := f.authenticationTag }
        assocInsert f.encryptedFilename entry acc)
      []
    let doc : LegacyDoc := { metadata := metadata, files := files, filedrop := m.fileDrop }
    (some (.legacy doc),
     { m with encryptedMetadataVersion := latestSupportedMetadataVersion version })

/-- FolderMetadata::encryptedMetadata.  `iv` is the random initialization
vector and `freshKey` the random key drawn when a legacy root folder is
migrated in place; `none` models the empty QByteArray returned on every
rejection path.  Mutations made before a rejection (the in-place key
creation) persist, as in the C++. -/
def FolderMetadata.encryptedMetadata (m : FolderMetadata) (acct : Account)
    (iv freshKey : Bytes) : Option MetaOutput × FolderMetadata :=
  if !m.isMetadataValid then (none, m)
  else if (latestSupportedMetadataVersion acct.capabilityVersion).lt .version2_0 then
    m.encryptedMetadataLegacy acct
  else
    let m1 :=
      if m.isRootEncryptedFolder && m.folderUsers.isEmpty
          && m.existingMetadataVersion.lt .version2_0 then
        m.createNewMetadataKeyForEncryption freshKey
      else m
    if m1.metadataKeyForEncryption.isEmpty then (none, m1)
    else
      let filesFolders := buildFilesFolders m1.files
      let keyChecksums := if m1.isRootEncryptedFolder then m1.keyChecksums else []
      let isChecksumsArrayValid :=
        (!m1.isRootEncryptedFolder && keyChecksums.isEmpty)
          || (m1.isRootEncryptedFolder && !keyChecksums.isEmpty)
      if !isChecksumsArrayValid then (none, m1)
      else
        let payload : CipherPayload :=
          { files := filesFolders.1, folders := filesFolders.2, keyChecksums := keyChecksums }
        let envelope : MetadataEnvelope :=
          { cipher := { key := m1.metadataKeyForEncryption, nonce := iv, plain := payload }
            nonce := iv
            authenticationTag := .gcmTag m1.metadataKeyForEncryption iv }
        let folderUsers := if m1.isRootEncryptedFolder then m1.folderUsers.map (·.2) else []
        let isFolderUsersArrayValid :=
          (!m1.isRootEncryptedFolder && folderUsers.isEmpty)
            || (m1.isRootEncryptedFolder && !folderUsers.isEmpty)
        if !isFolderUsersArrayValid then (none, m1)
        else
          let filedrop :=
            if !m1.fileDropCipherTextEncryptedAndBase64.isEmpty then
              some { cipherText := m1.fileDropCipherTextEncryptedAndBase64
                     nonce := m1.fileDropMetadataNonceBase64
                     authenticationTag := m1.fileDropMetadataAuthenticationTag
                     : FileDropJson }
            else none
          let doc : MetaDoc :=
            { metadata := envelope
              version := capabilityVersionString acct.capabilityVersion
              users := folderUsers
              filedrop := filedrop }
          (some (.v2 doc),
           { m1 with encryptedMetadataVersion :=
               latestSupportedMetadataVersion acct.capabilityVersion })

/-- FolderMetadata::RootEncryptedFolderInfo. -/
structure RootEncryptedFolderInfo where
  path : String
  keyForEncryption : Bytes := .raw []
  keyForDecryption : Bytes := .raw []
  keyChecksums : List Bytes := []
  deriving DecidableEq, Repr

/-- RootEncryptedFolderInfo::makeDefault. -/
def RootEncryptedFolderInfo.makeDefault : RootEncryptedFolderInfo :=
  { path := "/" }

/-- RootEncryptedFolderInfo::keysSet. -/
def RootEncryptedFolderInfo.keysSet (i : RootEncryptedFolderInfo) : Bool :=
  !i.keyForEncryption.isEmpty && !i.keyForDecryption.isEmpty && !i.keyChecksums.isEmpty

/-- FolderMetadata::isVersion2AndUp. -/
def FolderMetadata.isVersion2AndUp (m : FolderMetadata) : Bool :=
  !m.existingMetadataVersion.lt .version2_0

/-- The version-string recognition of
FolderMetadata::setupVersionFromExistingMetadata.  Documents produced by
this client carry the version as a string; the numeric JSON variants the
function also accepts normalize to the same strings. -/
def versionFromString (s : String) : MetadataVersion :=
  if s = "1.2" then .version1_2
  else if s = "2.0" || s = "2" then .version2_0
  else if s = "1.0" || s = "1" then .version1
  else .versionUndefined

/-- FolderMetadata::setupVersionFromExistingMetadata over the structured
document: a v2 document from this client stores the version string at the
top level, a legacy document inside its "metadata" object; an empty
metadata byte array leaves the version undefined. -/
def setupVersionFromExistingMetadata : Option MetaOutput → MetadataVersion
  | none => .versionUndefined
  | some (.v2 doc) => versionFromString doc.version
  | some (.legacy doc) => versionFromString doc.metadata.version

/-- FolderMetadata::parseEncryptedFileFromJson: an entry whose inner
filename is empty yields a default record (skipped by the caller); the
wrongly stored "inode/directory" mimetype is rewritten. -/
def parseEncryptedFileFromJson (encryptedFilename : String) (fj : FileJson) :
    EncryptedFile :=
  if fj.filename = "" then {}
  else
    { encryptedFilename := encryptedFilename
      authenticationTag := fj.authenticationTag
      initializationVector := fj.initializationVector
      originalFilename := fj.filename
      encryptionKey := fj.key
      mimetype := if fj.mimetype = "inode/directory" then "httpd/unix-directory" else fj.mimetype }

/-- FolderMetadata::setupExistingMetadata, latest (v2.0) branch, starting
from the constructor-initialized state `m`. -/
def FolderMetadata.setupExistingMetadata (m : FolderMetadata) (acct : Account)
    (doc : MetaDoc) : FolderMetadata :=
  let m1 :=
    match doc.filedrop with
    | some fd =>
      { m with
        fileDropCipherTextEncryptedAndBase64 := fd.cipherText
        fileDropMetadataAuthenticationTag := fd.authenticationTag
        fileDropMetadataNonceBase64 := fd.nonce }
    | none =>
      { m with
        fileDropCipherTextEncryptedAndBase64 := .raw []
        fileDropMetadataAuthenticationTag := .raw []
        fileDropMetadataNonceBase64 := .raw [] }
  let folderUsers := doc.users
  let isUsersArrayValid :=
    (!m1.isRootEncryptedFolder && folderUsers.isEmpty)
      || (m1.isRootEncryptedFolder && !folderUsers.isEmpty)
  if !isUsersArrayValid then m1
  else
    let m2 :=
      { m1 with
        folderUsers := folderUsers.foldl
          (fun acc (u : FolderUser) => assocInsert u.userId u acc) m1.folderUsers }
    let m3 :=
      match assocLookup acct.davUser m2.folderUsers with
      | some currentFolderUser =>
        let unwrapped := decryptDataWithPrivateKey acct.keyId currentFolderUser.encryptedMetadataKey
        { m2 with
          metadataKeyForEncryption := unwrapped
          metadataKeyForDecryption := unwrapped
          fileDropKey := decryptDataWithPrivateKey acct.keyId currentFolderUser.encryptedFiledropKey }
      | none => m2
    if m3.metadataKeyForDecryption.isEmpty || m3.metadataKeyForEncryption.isEmpty then m3
    else
      let m4 := { m3 with metadataNonce := doc.metadata.nonce }
      match decryptThenUnGzipData m4.metadataKeyForDecryption doc.metadata.cipher m4.metadataNonce with
      | none => m4
      | some payload =>
        let m5 :=
          if !payload.keyChecksums.isEmpty then { m4 with keyChecksums := [] } else m4
        let m6 :=
          { m5 with
            keyChecksums := payload.keyChecksums.foldl
              (fun acc c => if !c.isEmpty then setInsert c acc else acc) m5.keyChecksums }
        if !m6.verifyMetadataKey m6.metadataKeyForDecryption then m6
        else
          let parsedFiles := payload.files.foldl
            (fun acc kv =>
              let parsedEncryptedFile := parseEncryptedFileFromJson kv.1 kv.2
              if parsedEncryptedFile.originalFilename ≠ "" then acc ++ [parsedEncryptedFile]
              else acc)
            m6.files
          let parsedAll := payload.folders.foldl
            (fun acc kv =>
              if kv.2 ≠ "" then
                acc ++ [{ encryptedFilename := kv.1, originalFilename := kv.2 : EncryptedFile }]
              else acc)
            parsedFiles
          { m6 with files := parsedAll, isMetadataValid := true }

/-- FolderMetadata::decryptJsonObject on a legacy per-file blob: returns
the three plaintext fields when the key matches, `none` for the empty
QByteArray an authentication failure yields. -/
def decryptLegacyFileBlob (pass : Bytes) : Bytes → Option (Bytes × String × String)
  | .symEnc key fileKey filename mimetype =>
    if key = pass then some (fileKey, filename, mimetype) else none
  | _ => none

/-- The per-file loop of
FolderMetadata::setupExistingLegacyMetadataForMigration: entries whose
blob fails to decrypt or decrypts to an empty filename are skipped. -/
def parseLegacyFiles (decKey : Bytes) (entries : List (String × LegacyFileJson)) :
    List EncryptedFile :=
  entries.foldl
    (fun acc kv =>
      match decryptLegacyFileBlob decKey kv.2.encrypted with
      | none => acc
      | some (fileKey, filename, mimetype) =>
        if filename = "" then acc
        else
          acc ++ [{ encryptedFilename := kv.1
                    authenticationTag := kv.2.authenticationTag
                    initializationVector := kv.2.initializationVector
                    originalFilename := filename
                    encryptionKey := fileKey
                    mimetype := if mimetype = "inode/directory" then "httpd/unix-directory" else mimetype
                    : EncryptedFile }])
    []

/-- The tail of FolderMetadata::setupExistingLegacyMetadataForMigration
after the decryption key has been resolved: file parsing and the legacy
checksum validation with its skippable escape hatch. -/
def FolderMetadata.legacyMigrationTail (m : FolderMetadata) (acct : Account)
    (doc : LegacyDoc) : FolderMetadata :=
  if m.metadataKeyForDecryption.isEmpty then m
  else
    let m1 :=
      if m.metadataKeyForEncryption.isEmpty then
        { m with metadataKeyForEncryption := m.metadataKeyForDecryption }
      else m
    let metadataKey := doc.metadata.metadataKey
    let metadataKeyChecksum := doc.metadata.checksum
    let m2 := { m1 with fileDrop := doc.filedrop }
    let m3 := { m2 with files := m2.files ++ parseLegacyFiles m2.metadataKeyForDecryption doc.files }
    if !checkMetadataKeyChecksum acct m3.files metadataKey metadataKeyChecksum
        && !m3.existingMetadataVersion.lt .version1_2 then
      if !acct.shouldSkipE2eeMetadataChecksumValidation then m3
      else { m3 with isMetadataValid := true }
    else { m3 with isMetadataValid := true }

/-- FolderMetadata::setupExistingLegacyMetadataForMigration, starting from
the constructor-initialized state.  QJsonObject::keys() is sorted, so the
v1.0 `metadataKeys` map is modelled as already key-sorted and its last
entry is the last list element. -/
def FolderMetadata.setupExistingLegacyMetadataForMigration (m : FolderMetadata)
    (acct : Account) (doc : LegacyDoc) : FolderMetadata :=
  let m1 := { m with metadataKeyForDecryption := Bytes.empty }
  let metadataKeyFromJson := doc.metadata.metadataKey
  let m2 :=
    if !metadataKeyFromJson.isEmpty then
      let decryptedMetadataKeyBase64 := decryptDataWithPrivateKey acct.keyId metadataKeyFromJson
      if !decryptedMetadataKeyBase64.isEmpty then
        { m1 with metadataKeyForDecryption := decryptedMetadataKeyBase64 }
      else m1
    else m1
  if m2.metadataKeyForDecryption.isEmpty
      && m2.existingMetadataVersion.lt
        (latestSupportedMetadataVersion acct.capabilityVersion) then
    if doc.metadata.metadataKeys.isEmpty then m2
    else
      let m3 :=
        match doc.metadata.metadataKeys.getLast? with
        | none => m2
        | some lastEntry =>
          if lastEntry.1 = "" then m2
          else if lastEntry.2.isEmpty then m2
          else
            let lastMetadataKeyValueFromJsonBase64 :=
              decryptDataWithPrivateKey acct.keyId lastEntry.2
            if !lastMetadataKeyValueFromJsonBase64.isEmpty then
              { m2 with metadataKeyForDecryption := lastMetadataKeyValueFromJsonBase64 }
            else m2
      m3.legacyMigrationTail acct doc
  else m2.legacyMigrationTail acct doc

/-- FolderMetadata::setupEmptyMetadataLegacy; `freshKey` is the random
metadata key drawn by the function. -/
def FolderMetadata.setupEmptyMetadataLegacy (m : FolderMetadata) (freshKey : Bytes) :
    FolderMetadata :=
  { m with
    metadataKeyForEncryption := freshKey
    metadataKeyForDecryption := freshKey
    isMetadataValid := true }

/-- FolderMetadata::setupEmptyMetadata; on a v2-capable account and a root
folder the creator is registered as the sole folder user. -/
def FolderMetadata.setupEmptyMetadata (m : FolderMetadata) (acct : Account)
    (freshKey : Bytes) : FolderMetadata :=
  if acct.capabilityVersion < 20 then m.setupEmptyMetadataLegacy freshKey
  else
    let m1 :=
      if m.isRootEncryptedFolder then
        let afterAdd := (m.addUser acct.davUser acct.certificate freshKey).2
        { afterAdd with metadataKeyForDecryption := afterAdd.metadataKeyForEncryption }
      else m
    { m1 with isMetadataValid := true }

/-- The state the FolderMetadata constructor establishes before any setup
slot runs: root flag from the root path, keys and checksums from the
passed RootEncryptedFolderInfo, version detected from the raw document. -/
def initialState (metadata : Option MetaOutput) (rootInfo : RootEncryptedFolderInfo) :
    FolderMetadata :=
  { isRootEncryptedFolder := rootInfo.path = "/"
    metadataKeyForEncryption := rootInfo.keyForEncryption
    metadataKeyForDecryption := rootInfo.keyForDecryption
    keyChecksums := rootInfo.keyChecksums
    existingMetadataVersion := setupVersionFromExistingMetadata metadata }

/-- FolderMetadata::setupMetadata: empty raw metadata sets up an empty
model, otherwise the stored version dispatches between the v2.0 parser and
the legacy migration parser.  A document whose shape does not match its
version field fails every JSON lookup in the C++ and degrades to one of
the invalid early returns; the model returns the constructor state. -/
def FolderMetadata.setupMetadata (m : FolderMetadata) (acct : Account)
    (metadata : Option MetaOutput) (freshKey : Bytes) : FolderMetadata :=
  match metadata with
  | none => m.setupEmptyMetadata acct freshKey
  | some output =>
    if m.existingMetadataVersion.lt .version1 then m
    else if m.existingMetadataVersion.lt .version2_0 then
      match output with
      | .legacy doc => m.setupExistingLegacyMetadataForMigration acct doc
      | .v2 _ => m
    else
      match output with
      | .v2 doc => m.setupExistingMetadata acct doc
      | .legacy _ => m

/-- Parsing at the root level (path "/"): the constructor never fetches,
so setup runs directly. -/
def parseRootLevelMetadata (acct : Account) (metadata : Option MetaOutput)
    (freshKey : Bytes) : FolderMetadata :=
  (initialState metadata RootEncryptedFolderInfo.makeDefault).setupMetadata acct metadata freshKey

/-- The full FolderMetadata constructor: a non-root folder with unresolved
keys first fetches and parses its root folder's metadata
(startFetchRootE2eeFolderMetadata / rootE2eeFolderMetadataReceived) and
inherits its key chain; `rootFetched` is the outcome of that network hop
(`none` models an empty or failed response). -/
def parseMetadata (acct : Account) (metadata : Option MetaOutput)
    (rootInfo : RootEncryptedFolderInfo) (freshKey : Bytes)
    (rootFetched : Option MetaOutput) : FolderMetadata :=
  let m := initialState metadata rootInfo
  if !m.isRootEncryptedFolder && !rootInfo.keysSet && rootInfo.path ≠ "" then
    match rootFetched with
    | none => m.setupMetadata acct metadata freshKey
    | some rootJson =>
      let rootMeta := parseRootLevelMetadata acct (some rootJson) freshKey
      if !rootMeta.isValid || !rootMeta.isVersion2AndUp then
        m.setupMetadata acct metadata freshKey
      else
        let m1 := { m with metadataKeyForEncryption := rootMeta.metadataKeyForEncryption }
        if !m1.isVersion2AndUp then m1.setupMetadata acct metadata freshKey
        else
          let m2 :=
            { m1 with
              metadataKeyForDecryption := rootMeta.metadataKeyForDecryption
              metadataKeyForEncryption := rootMeta.metadataKeyForEncryption
              keyChecksums := rootMeta.keyChecksums }
          m2.setupMetadata acct metadata freshKey
  else m.setupMetadata acct metadata freshKey

/-!
FetchAndUploadE2eeFolderMetadataJob
(src/libsync/fetchanduploade2eefoldermetadatajob.cpp).

The Qt signal/slot chain is modelled by explicit state passing: each slot
is a function from job state to new state plus the list of emitted signals
and issued network requests, and the asynchronous continuation of a
started network job is composed synchronously with the server's outcome
passed in as a parameter.  The transient
`folderUnlocked -> slotEmitUploadSuccess/Error` connections are counted in
the state; Qt invokes a slot once per live connection, and a connection
removed while the signal is being emitted is not invoked, so a slot that
first disconnects itself runs exactly once per emission even when the
connection was made twice.
-/

/-- Signals emitted and network requests issued by the job. -/
inductive JobEvent where
  | fetchFinished (code : Int) (hasMessage : Bool)
  | uploadFinished (code : Int) (hasMessage : Bool)
  | folderUnlocked (status : Int)
  | lockRequest
  | unlockRequest
  | storeMetadataRequest
  | updateMetadataRequest
  deriving DecidableEq, Repr

/-- The mutable state of FetchAndUploadE2eeFolderMetadataJob, plus the live
connection counts of the two transient folderUnlocked connections. -/
structure JobState where
  folderToken : Bytes := .raw []
  uploadErrorCode : Int := 200
  allowEmptyMetadata : Bool := false
  isFolderLocked : Bool := false
  isUnlockRunning : Bool := false
  isNewMetadataCreated : Bool := false
  keepLockedAfterUpdate : Bool := false
  folderMetadata : Option FolderMetadata := none
  connSuccess : Nat := 0
  connError : Nat := 0
  deriving Repr

/-- The `!folderMetadata() || !folderMetadata()->isValid()` test. -/
def JobState.metadataMissingOrInvalid (s : JobState) : Bool :=
  match s.folderMetadata with
  | none => true
  | some md => !md.isValid

/-- slotEmitUploadSuccess: disconnect every matching connection, then emit
uploadFinished(_uploadErrorCode). -/
def slotEmitUploadSuccess (s : JobState) : JobState × List JobEvent :=
  ({ s with connSuccess := 0 }, [.uploadFinished s.uploadErrorCode false])

/-- slotEmitUploadError: disconnect every matching connection, then emit
uploadFinished(_uploadErrorCode, message). -/
def slotEmitUploadError (s : JobState) : JobState × List JobEvent :=
  ({ s with connError := 0 }, [.uploadFinished s.uploadErrorCode true])

/-- Emission of the folderUnlocked signal: each connected slot body runs
once (the slot's own disconnect suppresses the duplicate connection, per
Qt's rule that a connection removed during emission is not invoked). -/
def emitFolderUnlocked (s : JobState) (status : Int) : JobState × List JobEvent :=
  let (s1, ev1) := if s.connSuccess ≥ 1 then slotEmitUploadSuccess s else (s, [])
  let (s2, ev2) := if s1.connError ≥ 1 then slotEmitUploadError s1 else (s1, [])
  (s2, .folderUnlocked status :: (ev1 ++ ev2))

/-- FetchAndUploadE2eeFolderMetadataJob::unlockFolder.  `unlockOutcome` is
the server's answer to the unlock request: `none` for success, `some code`
for an error status. -/
def unlockFolder (s : JobState) (success : Bool) (unlockOutcome : Option Int) :
    JobState × List JobEvent :=
  if s.isUnlockRunning then (s, [])
  else if !s.isFolderLocked then emitFolderUnlocked s 204
  else
    let s1 :=
      if !s.keepLockedAfterUpdate then
        if success then { s with connSuccess := s.connSuccess + 1 }
        else { s with connError := s.connError + 1 }
      else s
    if s1.folderToken.isEmpty then emitFolderUnlocked s1 200
    else
      let s2 := { s1 with isUnlockRunning := true }
      match unlockOutcome with
      | none =>
        let s3 := { s2 with isFolderLocked := false }
        let r := emitFolderUnlocked s3 200
        ({ r.1 with isUnlockRunning := false }, .unlockRequest :: r.2)
      | some httpStatus =>
        let r := emitFolderUnlocked s2 httpStatus
        ({ r.1 with isUnlockRunning := false }, .unlockRequest :: r.2)

/-- FetchAndUploadE2eeFolderMetadataJob::slotUploadMetadataSuccess. -/
def slotUploadMetadataSuccess (s : JobState) (unlockOutcome : Option Int) :
    JobState × List JobEvent :=
  if s.keepLockedAfterUpdate || !s.isFolderLocked then slotEmitUploadSuccess s
  else
    let s1 := { s with connSuccess := s.connSuccess + 1 }
    unlockFolder s1 true unlockOutcome

/-- FetchAndUploadE2eeFolderMetadataJob::slotUploadMetadataError. -/
def slotUploadMetadataError (s : JobState) (httpReturnCode : Int)
    (unlockOutcome : Option Int) : JobState × List JobEvent :=
  let s1 := { s with uploadErrorCode := httpReturnCode }
  if s1.isFolderLocked && !s1.keepLockedAfterUpdate then
    let s2 := { s1 with connError := s1.connError + 1 }
    unlockFolder s2 false unlockOutcome
  else (s1, [.uploadFinished s1.uploadErrorCode false])

/-- FetchAndUploadE2eeFolderMetadataJob::startUploadMetadata.  The
serialized metadata payload is built here in the C++ but its content does
not influence any branch, so it is not recomputed; `uploadOutcome` is the
store/update job's answer (`none` success, `some code` error). -/
def startUploadMetadata (s : JobState) (uploadOutcome : Option Int)
    (unlockOutcome : Option Int) : JobState × List JobEvent :=
  let s1 := { s with uploadErrorCode := 200 }
  if s1.metadataMissingOrInvalid then slotUploadMetadataError s1 (-1) unlockOutcome
  else
    let req : JobEvent :=
      if s1.isNewMetadataCreated then .storeMetadataRequest else .updateMetadataRequest
    match uploadOutcome with
    | none =>
      let r := slotUploadMetadataSuccess s1 unlockOutcome
      (r.1, req :: r.2)
    | some code =>
      let r := slotUploadMetadataError s1 code unlockOutcome
      (r.1, req :: r.2)

/-- FetchAndUploadE2eeFolderMetadataJob::validateBeforeLock (the release
behavior; the commented-out assertion is a debug trap). -/
def validateBeforeLock (s : JobState) : Bool × List JobEvent :=
  if s.isFolderLocked then (false, [.uploadFinished (-1) true])
  else if s.metadataMissingOrInvalid then (false, [.uploadFinished (-1) true])
  else (true, [])

/-- The server's answer to a lock request. -/
inductive LockOutcome where
  | granted (token : Bytes)
  | denied (code : Int)
  deriving DecidableEq, Repr

/-- FetchAndUploadE2eeFolderMetadataJob::lockFolder, composed with the
lock job's completion slots (slotFolderLockedSuccessfully emits no
terminal signal itself, slotFolderLockedError emits fetchFinished). -/
def lockFolder (s : JobState) (lockOutcome : LockOutcome)
    (uploadOutcome unlockOutcome : Option Int) : JobState × List JobEvent :=
  let v := validateBeforeLock s
  if !v.1 then (s, v.2)
  else
    match lockOutcome with
    | .granted token =>
      let s1 := { s with folderToken := token, isFolderLocked := true }
      let r := startUploadMetadata s1 uploadOutcome unlockOutcome
      (r.1, .lockRequest :: r.2)
    | .denied code =>
      (s, [.lockRequest, .fetchFinished code true])

/-- FetchAndUploadE2eeFolderMetadataJob::uploadMetadata: reuse an existing
token, otherwise lock first. -/
def uploadMetadata (s : JobState) (keepLock : Bool) (lockOutcome : LockOutcome)
    (uploadOutcome unlockOutcome : Option Int) : JobState × List JobEvent :=
  let s1 := { s with keepLockedAfterUpdate := keepLock }
  if !s1.folderToken.isEmpty then startUploadMetadata s1 uploadOutcome unlockOutcome
  else lockFolder s1 lockOutcome uploadOutcome unlockOutcome

/-- FetchAndUploadE2eeFolderMetadataJob::slotMetadataReceived: the fetched
document is parsed and decrypted; `rootFetched` parameterizes the nested
root-metadata network hop of the FolderMetadata constructor. -/
def slotMetadataReceived (s : JobState) (acct : Account)
    (rootInfo : RootEncryptedFolderInfo) (json : Option MetaOutput)
    (statusCode : Int) (freshKey : Bytes) (rootFetched : Option MetaOutput) :
    JobState × List JobEvent :=
  let s1 := { s with allowEmptyMetadata := false }
  if statusCode ≠ 200 ∧ statusCode ≠ 404 then (s1, [.fetchFinished statusCode true])
  else
    let rawMetadata := if statusCode = 404 then none else json
    let metadata := parseMetadata acct rawMetadata rootInfo freshKey rootFetched
    if !metadata.isValid then (s1, [.fetchFinished (-1) true])
    else ({ s1 with folderMetadata := some metadata }, [.fetchFinished 200 false])

/-- FetchAndUploadE2eeFolderMetadataJob::slotMetadataReceivedError: with
allowEmptyMetadata the error is converted into an empty-metadata receive
(first upload), otherwise the fetch fails with the HTTP code. -/
def slotMetadataReceivedError (s : JobState) (acct : Account)
    (rootInfo : RootEncryptedFolderInfo) (httpReturnCode : Int)
    (freshKey : Bytes) (rootFetched : Option MetaOutput) :
    JobState × List JobEvent :=
  if s.allowEmptyMetadata then
    let s1 := { s with isNewMetadataCreated := true }
    slotMetadataReceived s1 acct rootInfo none httpReturnCode freshKey rootFetched
  else (s, [.fetchFinished httpReturnCode true])

/-- Terminal completion callbacks: fetchFinished and uploadFinished. -/
def isTerminalEvent : JobEvent → Bool
  | .fetchFinished _ _ => true
  | .uploadFinished _ _ => true
  | _ => false

/-- Number of terminal completion callbacks in an event trace. -/
def countTerminal (evs : List JobEvent) : Nat :=
  (evs.filter isTerminalEvent).length

/-! ## Claim theorems -/

/-- Helper: updateUsersEncryptedMetadataKey never changes the metadata key
for encryption. -/
theorem updateUsers_metadataKeyForEncryption (m : FolderMetadata) :
    m.updateUsersEncryptedMetadataKey.metadataKeyForEncryption = m.metadataKeyForEncryption := by
  unfold FolderMetadata.updateUsersEncryptedMetadataKey
  split_ifs <;> rfl

/-- Helper: updateUsersEncryptedMetadataKey never changes the key checksum
set. -/
theorem updateUsers_keyChecksums (m : FolderMetadata) :
    m.updateUsersEncryptedMetadataKey.keyChecksums = m.keyChecksums := by
  unfold FolderMetadata.updateUsersEncryptedMetadataKey
  split_ifs <;> rfl

/-- Helper: on a root folder, createNewMetadataKeyForEncryption installs
the fresh key. -/
theorem createNewKey_metadataKeyForEncryption (m : FolderMetadata) (freshKey : Bytes)
    (hroot : m.isRootEncryptedFolder = true) :
    (m.createNewMetadataKeyForEncryption freshKey).metadataKeyForEncryption = freshKey := by
  unfold FolderMetadata.createNewMetadataKeyForEncryption
  split_ifs <;> simp_all

/-- C10: on a root model, removeUser with any non-empty userId returns
true and installs the fresh metadata key, whether or not the userId is
present in the Folder User set — there is no user-not-found failure
path. -/
theorem removeUser_always_succeeds_and_rotates (m : FolderMetadata) (userId : String)
    (freshKey : Bytes) (hroot : m.isRootEncryptedFolder = true) (hid : userId ≠ "") :
    (m.removeUser userId freshKey).1 = true ∧
      (m.removeUser userId freshKey).2.metadataKeyForEncryption = freshKey := by
  unfold FolderMetadata.removeUser
  simp only [hroot, hid, Bool.not_true, Bool.false_eq_true, if_false, if_neg hid]
  refine ⟨trivial, ?_⟩
  rw [updateUsers_metadataKeyForEncryption]
  exact createNewKey_metadataKeyForEncryption m freshKey hroot

/-- C10 witness: a concrete root model and a userId absent from the user
set. -/
theorem removeUser_always_succeeds_and_rotates_witness :
    ({ isRootEncryptedFolder := true : FolderMetadata }.removeUser "bob" (.raw [2])).1 = true ∧
      ({ isRootEncryptedFolder := true : FolderMetadata }.removeUser "bob"
        (.raw [2])).2.metadataKeyForEncryption = .raw [2] :=
  removeUser_always_succeeds_and_rotates { isRootEncryptedFolder := true } "bob" (.raw [2])
    rfl (by decide)

/-- Helper: membership in a QSet after insert. -/
theorem mem_setInsert {a b : Bytes} {s : List Bytes} :
    b ∈ setInsert a s ↔ b = a ∨ b ∈ s := by
  unfold setInsert
  split_ifs with h
  · constructor
    · exact fun hb => Or.inr hb
    · rintro (rfl | hb)
      · exact h
      · exact hb
  · simp [List.mem_cons]

/-- Helper: on a root folder with a nonempty old key and a nonempty fresh
key, createNewMetadataKeyForEncryption drops the old key's checksum and
inserts the fresh key's checksum. -/
theorem createNewKey_keyChecksums (m : FolderMetadata) (freshKey : Bytes)
    (hroot : m.isRootEncryptedFolder = true)
    (hold : m.metadataKeyForEncryption.isEmpty = false)
    (hfresh : freshKey.isEmpty = false) :
    (m.createNewMetadataKeyForEncryption freshKey).keyChecksums =
      setInsert (calcSha256 freshKey)
        (setRemove (calcSha256 m.metadataKeyForEncryption) m.keyChecksums) := by
  unfold FolderMetadata.createNewMetadataKeyForEncryption
  simp [hroot, hold, hfresh]

/-- A concrete valid root model holding one metadata key whose checksum is
the sole element of the Key Checksum Set. -/
def rootModelOneKey : FolderMetadata :=
  { isRootEncryptedFolder := true
    metadataKeyForEncryption := .raw [1]
    metadataKeyForDecryption := .raw [1]
    keyChecksums := [Bytes.sha256 (.raw [1])]
    isMetadataValid := true }

/-- C3 counterexample: on the revision under verification, removeUser
deletes the previous key's checksum from the Key Checksum Set outright;
the FolderMetadata state of foldermetadata.cpp keeps no separate "removed"
checksum set the old checksum could move to. -/
theorem removeUser_old_checksum_deleted_outright :
    ((rootModelOneKey.removeUser "bob" (.raw [2])).1 = true) ∧
    Bytes.sha256 (.raw [1]) ∉
      (rootModelOneKey.removeUser "bob" (.raw [2])).2.keyChecksums := by
  decide

/-- C3 (amended): after a successful addUser or removeUser, the fresh
key's checksum is present in the Key Checksum Set and the previous key's
checksum has been removed from it outright (this revision retains no
"removed" checksum set; that set exists only in a newer revision whose
implementation is not part of the sources under verification). -/
theorem addRemoveUser_checksum_rotation (m : FolderMetadata) (userId : String)
    (certId : Nat) (freshKey : Bytes)
    (hroot : m.isRootEncryptedFolder = true) (hid : userId ≠ "")
    (hfresh : freshKey.isEmpty = false) (hnodup : m.keyChecksums.Nodup)
    (hold : m.metadataKeyForEncryption.isEmpty = false)
    (hne : m.metadataKeyForEncryption ≠ freshKey) :
    calcSha256 freshKey ∈ (m.addUser userId (some certId) freshKey).2.keyChecksums ∧
    calcSha256 m.metadataKeyForEncryption ∉
      (m.addUser userId (some certId) freshKey).2.keyChecksums ∧
    calcSha256 freshKey ∈ (m.removeUser userId freshKey).2.keyChecksums ∧
    calcSha256 m.metadataKeyForEncryption ∉
      (m.removeUser userId freshKey).2.keyChecksums := by
  have hshane : calcSha256 m.metadataKeyForEncryption ≠ calcSha256 freshKey := by
    simp only [calcSha256, ne_eq, Bytes.sha256.injEq]
    exact hne
  have hmemIn : calcSha256 freshKey ∈
      setInsert (calcSha256 freshKey)
        (setRemove (calcSha256 m.metadataKeyForEncryption) m.keyChecksums) :=
    mem_setInsert.mpr (Or.inl rfl)
  have hmemOut : calcSha256 m.metadataKeyForEncryption ∉
      setInsert (calcSha256 freshKey)
        (setRemove (calcSha256 m.metadataKeyForEncryption) m.keyChecksums) := by
    intro hmem
    rcases mem_setInsert.mp hmem with h | h
    · exact hshane h
    · exact absurd ((hnodup.mem_erase_iff).mp h).1 (by simp)
  have haddKs : (m.addUser userId (some certId) freshKey).2.keyChecksums =
      setInsert (calcSha256 freshKey)
        (setRemove (calcSha256 m.metadataKeyForEncryption) m.keyChecksums) := by
    unfold FolderMetadata.addUser
    simp only [hroot, Bool.not_true, Bool.false_eq_true, if_false, if_neg hid]
    rw [updateUsers_keyChecksums]
    exact createNewKey_keyChecksums m freshKey hroot hold hfresh
  have hremKs : (m.removeUser userId freshKey).2.keyChecksums =
      setInsert (calcSha256 freshKey)
        (setRemove (calcSha256 m.metadataKeyForEncryption) m.keyChecksums) := by
    unfold FolderMetadata.removeUser
    simp only [hroot, Bool.not_true, Bool.false_eq_true, if_false, if_neg hid]
    rw [updateUsers_keyChecksums]
    exact createNewKey_keyChecksums m freshKey hroot hold hfresh
  rw [haddKs, hremKs]
  exact ⟨hmemIn, hmemOut, hmemIn, hmemOut⟩

/-- C3 witness: the amended rotation behavior at a concrete input. -/
theorem addRemoveUser_checksum_rotation_witness :
    calcSha256 (.raw [2]) ∈
      (rootModelOneKey.addUser "carol" (some 5) (.raw [2])).2.keyChecksums ∧
    calcSha256 rootModelOneKey.metadataKeyForEncryption ∉
      (rootModelOneKey.addUser "carol" (some 5) (.raw [2])).2.keyChecksums ∧
    calcSha256 (.raw [2]) ∈
      (rootModelOneKey.removeUser "carol" (.raw [2])).2.keyChecksums ∧
    calcSha256 rootModelOneKey.metadataKeyForEncryption ∉
      (rootModelOneKey.removeUser "carol" (.raw [2])).2.keyChecksums :=
  addRemoveUser_checksum_rotation rootModelOneKey "carol" 5 (.raw [2]) rfl (by decide)
    (by decide) (by decide) (by decide) (by decide)

/-- Helper: createNewMetadataKeyForEncryption changes no field besides the
encryption key and the checksum set. -/
theorem createNewKey_folderUsers (m : FolderMetadata) (freshKey : Bytes) :
    (m.createNewMetadataKeyForEncryption freshKey).folderUsers = m.folderUsers := by
  unfold FolderMetadata.createNewMetadataKeyForEncryption
  split_ifs <;> rfl

/-- Helper: createNewMetadataKeyForEncryption keeps the root flag. -/
theorem createNewKey_isRoot (m : FolderMetadata) (freshKey : Bytes) :
    (m.createNewMetadataKeyForEncryption freshKey).isRootEncryptedFolder =
      m.isRootEncryptedFolder := by
  unfold FolderMetadata.createNewMetadataKeyForEncryption
  split_ifs <;> rfl

/-- A concrete, fully valid non-root model that nevertheless carries a
Folder User entry. -/
def nonRootModelWithUser : FolderMetadata :=
  { isRootEncryptedFolder := false
    metadataKeyForEncryption := .raw [3]
    metadataKeyForDecryption := .raw [3]
    folderUsers := [("mallory", { userId := "mallory" })]
    isMetadataValid := true
    existingMetadataVersion := .version2_0 }

/-- A concrete v2-capable account. -/
def acctV2 : Account :=
  { davUser := "alice"
    keyId := 1
    certificate := some 1
    capabilityVersion := 20
    mnemonic := "word"
    shouldSkipE2eeMetadataChecksumValidation := false }

/-- C5 counterexample: encryptedMetadata does not reject a non-root model
that carries Folder Users — the users array is simply never serialized for
a non-root folder, so the validity check passes vacuously and a document
is produced. -/
theorem encryptedMetadata_accepts_nonroot_with_users :
    nonRootModelWithUser.folderUsers ≠ [] ∧
      (nonRootModelWithUser.encryptedMetadata acctV2 (.raw [9]) (.raw [8])).1.isSome = true := by
  decide

/-- C5 (amended): addUser and removeUser always fail on a non-root model;
with a v2-capable server, encryptedMetadata rejects a root model with
zero Folder Users; and a non-root model never serializes Folder Users (the
users array of its document is empty) — it is not rejected for carrying
them. -/
theorem folderUsers_root_invariant_enforcement (m : FolderMetadata) (userId : String)
    (certificate : Option Nat) (acct : Account) (iv freshKey : Bytes) :
    (m.isRootEncryptedFolder = false → (m.addUser userId certificate freshKey).1 = false) ∧
    (m.isRootEncryptedFolder = false → (m.removeUser userId freshKey).1 = false) ∧
    (m.isRootEncryptedFolder = true → m.folderUsers = [] →
      latestSupportedMetadataVersion acct.capabilityVersion = .version2_0 →
      (m.encryptedMetadata acct iv freshKey).1 = none) ∧
    (m.isRootEncryptedFolder = false → ∀ doc : MetaDoc,
      (m.encryptedMetadata acct iv freshKey).1 = some (.v2 doc) → doc.users = []) := by
  refine ⟨?_, ?_, ?_, ?_⟩
  · intro hroot
    unfold FolderMetadata.addUser
    cases certificate <;> simp [hroot]
  · intro hroot
    unfold FolderMetadata.removeUser
    simp [hroot]
  · intro hroot husers hlatest
    unfold FolderMetadata.encryptedMetadata
    simp only [hlatest]
    split_ifs with h1 h2 <;>
      simp_all [MetadataVersion.lt, MetadataVersion.toInt, createNewKey_folderUsers,
        createNewKey_isRoot, hroot, husers]
  · intro hroot doc
    unfold FolderMetadata.encryptedMetadata FolderMetadata.encryptedMetadataLegacy
    split_ifs <;> simp_all [hroot]
    intro h
    split_ifs at h <;> simp_all <;> simp [← h]

/-- A concrete valid root model with no Folder Users. -/
def rootModelNoUsers : FolderMetadata :=
  { isRootEncryptedFolder := true
    metadataKeyForEncryption := .raw [1]
    metadataKeyForDecryption := .raw [1]
    keyChecksums := [Bytes.sha256 (.raw [1])]
    isMetadataValid := true
    existingMetadataVersion := .version2_0 }

/-- C5 witness: the amended enforcement at concrete inputs — rejections on
a non-root model and on a root model without users. -/
theorem folderUsers_root_invariant_enforcement_witness :
    (nonRootModelWithUser.addUser "x" (some 1) (.raw [4])).1 = false ∧
    (nonRootModelWithUser.removeUser "x" (.raw [4])).1 = false ∧
    (rootModelNoUsers.encryptedMetadata acctV2 (.raw [9]) (.raw [8])).1 = none :=
  ⟨(folderUsers_root_invariant_enforcement nonRootModelWithUser "x" (some 1) acctV2
      (.raw [9]) (.raw [4])).1 rfl,
   (folderUsers_root_invariant_enforcement nonRootModelWithUser "x" (some 1) acctV2
      (.raw [9]) (.raw [4])).2.1 rfl,
   (folderUsers_root_invariant_enforcement rootModelNoUsers "x" (some 1) acctV2
      (.raw [9]) (.raw [8])).2.2.1 rfl rfl (by decide)⟩

/-- C8: calling unlockFolder while no lock is held (folder not marked
locked, no unlock in flight, no transient completion connections) reports
success by emitting folderUnlocked(204), issues no unlock request, and
leaves the job state exactly unchanged; since the state is unchanged, the
call can be repeated any number of times with the same outcome. -/
theorem unlockFolder_no_lock_noop (s : JobState) (success : Bool)
    (unlockOutcome : Option Int) (hlocked : s.isFolderLocked = false)
    (hrun : s.isUnlockRunning = false) (hcs : s.connSuccess = 0)
    (hce : s.connError = 0) :
    unlockFolder s success unlockOutcome = (s, [.folderUnlocked 204]) ∧
    ∀ n : Nat, (fun t => (unlockFolder t success unlockOutcome).1)^[n] s = s := by
  have hone : unlockFolder s success unlockOutcome = (s, [.folderUnlocked 204]) := by
    unfold unlockFolder emitFolderUnlocked slotEmitUploadSuccess slotEmitUploadError
    simp [hlocked, hrun, hcs, hce]
  refine ⟨hone, fun n => Function.iterate_fixed ?_ n⟩
  simp [hone]

/-- C8 witness: the freshly constructed job state. -/
theorem unlockFolder_no_lock_noop_witness :
    unlockFolder {} true none = ({}, [.folderUnlocked 204]) ∧
    ∀ n : Nat, (fun t => (unlockFolder t true none).1)^[n] ({} : JobState) = {} :=
  unlockFolder_no_lock_noop {} true none rfl rfl rfl rfl

/-- Helper: emitting folderUnlocked issues no lock request. -/
theorem lockRequest_not_in_emitFolderUnlocked (s : JobState) (st : Int) :
    JobEvent.lockRequest ∉ (emitFolderUnlocked s st).2 := by
  simp only [emitFolderUnlocked, slotEmitUploadSuccess, slotEmitUploadError]
  split_ifs <;> simp

/-- Helper: the unlock phase issues no lock request. -/
theorem lockRequest_not_in_unlockFolder (s : JobState) (success : Bool)
    (ul : Option Int) :
    JobEvent.lockRequest ∉ (unlockFolder s success ul).2 := by
  simp only [unlockFolder]
  cases ul <;> split_ifs <;>
    simp_all [lockRequest_not_in_emitFolderUnlocked]

/-- Helper: the upload success slot issues no lock request. -/
theorem lockRequest_not_in_slotUploadSuccess (s : JobState) (ul : Option Int) :
    JobEvent.lockRequest ∉ (slotUploadMetadataSuccess s ul).2 := by
  simp only [slotUploadMetadataSuccess, slotEmitUploadSuccess]
  split_ifs <;> simp [lockRequest_not_in_unlockFolder]

/-- Helper: the upload error slot issues no lock request. -/
theorem lockRequest_not_in_slotUploadError (s : JobState) (code : Int)
    (ul : Option Int) :
    JobEvent.lockRequest ∉ (slotUploadMetadataError s code ul).2 := by
  simp only [slotUploadMetadataError]
  split_ifs <;> simp [lockRequest_not_in_unlockFolder]

/-- Helper: the upload phase (startUploadMetadata and everything it can
reach) never issues a lock request. -/
theorem lockRequest_not_in_startUpload (s : JobState) (uo ul : Option Int) :
    JobEvent.lockRequest ∉ (startUploadMetadata s uo ul).2 := by
  simp only [startUploadMetadata]
  cases uo <;> split_ifs <;>
    simp_all [lockRequest_not_in_slotUploadSuccess, lockRequest_not_in_slotUploadError]

/-- C9: a job whose folder is already marked locked never issues another
lock request from uploadMetadata, and when it would have to lock (no token
held) it fails fast with a single uploadFinished error. -/
theorem no_second_lock_request (s : JobState) (keepLock : Bool) (lo : LockOutcome)
    (uo ul : Option Int) (hlocked : s.isFolderLocked = true) :
    JobEvent.lockRequest ∉ (uploadMetadata s keepLock lo uo ul).2 ∧
    (s.folderToken.isEmpty = true →
      (uploadMetadata s keepLock lo uo ul).2 = [.uploadFinished (-1) true]) := by
  simp only [uploadMetadata, lockFolder, validateBeforeLock]
  constructor
  · cases lo <;> split_ifs <;> simp_all [lockRequest_not_in_startUpload]
  · intro htoken
    cases lo <;> split_ifs <;> simp_all

/-- C9 witness: a locked job with no token fails fast without a lock
request. -/
theorem no_second_lock_request_witness :
    JobEvent.lockRequest ∉
      (uploadMetadata { isFolderLocked := true } false (.denied 423) none none).2 ∧
    (uploadMetadata { isFolderLocked := true } false (.denied 423) none none).2 =
      [.uploadFinished (-1) true] :=
  ⟨(no_second_lock_request { isFolderLocked := true } false (.denied 423) none none rfl).1,
   (no_second_lock_request { isFolderLocked := true } false (.denied 423) none none rfl).2 rfl⟩

/-- Helper: parsing empty metadata for a root folder on a v2-capable
account yields a valid model with an empty file list. -/
theorem parse_none_root_valid_empty (acct : Account) (rootInfo : RootEncryptedFolderInfo)
    (fk : Bytes) (rf : Option MetaOutput) (c : Nat)
    (hroot : rootInfo.path = "/") (hcap : 20 ≤ acct.capabilityVersion)
    (hc : acct.certificate = some c) (hdav : acct.davUser ≠ "")
    (hfresh : fk.isEmpty = false) :
    (parseMetadata acct none rootInfo fk rf).isValid = true ∧
      (parseMetadata acct none rootInfo fk rf).files = [] := by
  have hncap : ¬ acct.capabilityVersion < 20 := Nat.not_lt.mpr hcap
  unfold parseMetadata
  simp only [initialState, setupVersionFromExistingMetadata, hroot]
  simp only [FolderMetadata.setupMetadata, FolderMetadata.setupEmptyMetadata,
    FolderMetadata.addUser, FolderMetadata.createNewMetadataKeyForEncryption,
    FolderMetadata.updateUsersEncryptedMetadataKey, hc, hncap]
  simp_all [FolderMetadata.isValid]
  split_ifs <;> simp_all

/-- C7: a fetch answered with HTTP 404 while the caller allowed empty
metadata completes successfully — fetchFinished(200) with a valid empty
model — and a fetch answered with any status other than 200/404 fails
with exactly that status, on both the error-signal path and the
received-signal path. -/
theorem fetch404_with_allowEmpty (s : JobState) (acct : Account)
    (rootInfo : RootEncryptedFolderInfo) (freshKey : Bytes)
    (rootFetched json : Option MetaOutput) (c : Nat)
    (hallow : s.allowEmptyMetadata = true) (hroot : rootInfo.path = "/")
    (hcap : 20 ≤ acct.capabilityVersion) (hc : acct.certificate = some c)
    (hdav : acct.davUser ≠ "") (hfresh : freshKey.isEmpty = false) :
    (slotMetadataReceivedError s acct rootInfo 404 freshKey rootFetched).2 =
      [.fetchFinished 200 false] ∧
    (∃ md : FolderMetadata,
      (slotMetadataReceivedError s acct rootInfo 404 freshKey rootFetched).1.folderMetadata =
        some md ∧ md.isValid = true ∧ md.files = []) ∧
    (∀ code : Int, code ≠ 200 → code ≠ 404 →
      (slotMetadataReceivedError s acct rootInfo code freshKey rootFetched).2 =
        [.fetchFinished code true] ∧
      (slotMetadataReceived s acct rootInfo json code freshKey rootFetched).2 =
        [.fetchFinished code true]) := by
  have hp := parse_none_root_valid_empty acct rootInfo freshKey rootFetched c hroot hcap
    hc hdav hfresh
  refine ⟨?_, ?_, ?_⟩
  · simp [slotMetadataReceivedError, hallow, slotMetadataReceived, hp.1]
  · refine ⟨parseMetadata acct none rootInfo freshKey rootFetched, ?_, hp.1, hp.2⟩
    simp [slotMetadataReceivedError, hallow, slotMetadataReceived, hp.1]
  · intro code h1 h2
    constructor
    · simp [slotMetadataReceivedError, hallow, slotMetadataReceived, h1, h2]
    · simp [slotMetadataReceived, h1, h2]

/-- C7 witness: a concrete job with allowEmptyMetadata, a 404 answer and a
500 answer. -/
theorem fetch404_with_allowEmpty_witness :
    (slotMetadataReceivedError { allowEmptyMetadata := true } acctV2
        RootEncryptedFolderInfo.makeDefault 404 (.raw [1]) none).2 =
      [.fetchFinished 200 false] ∧
    (slotMetadataReceivedError { allowEmptyMetadata := true } acctV2
        RootEncryptedFolderInfo.makeDefault 500 (.raw [1]) none).2 =
      [.fetchFinished 500 true] :=
  ⟨(fetch404_with_allowEmpty { allowEmptyMetadata := true } acctV2
      RootEncryptedFolderInfo.makeDefault (.raw [1]) none none 1 rfl rfl (by decide) rfl
      (by decide) (by decide)).1,
   ((fetch404_with_allowEmpty { allowEmptyMetadata := true } acctV2
      RootEncryptedFolderInfo.makeDefault (.raw [1]) none none 1 rfl rfl (by decide) rfl
      (by decide) (by decide)).2.2 500 (by decide) (by decide)).1⟩

/-- Helper: whenever encryptedMetadata produces a document, the version it
records is latestSupportedMetadataVersion of the server capability — with
no regard to the version the model was parsed from. -/
theorem encryptedMetadata_version_on_success (m : FolderMetadata) (acct : Account)
    (iv fk : Bytes) (h : (m.encryptedMetadata acct iv fk).1.isSome = true) :
    (m.encryptedMetadata acct iv fk).2.encryptedMetadataVersion =
      latestSupportedMetadataVersion acct.capabilityVersion := by
  unfold FolderMetadata.encryptedMetadata FolderMetadata.encryptedMetadataLegacy at h ⊢
  split_ifs at h ⊢ <;> simp_all <;> split_ifs at h ⊢ <;> simp_all

/-- A 16-byte metadata key. -/
def key16 : Bytes := .raw [7, 7, 7, 7, 7, 7, 7, 7, 7, 7, 7, 7, 7, 7, 7, 7]

/-- An account whose server capability regressed to E2EE version 1.2. -/
def acctV12 : Account :=
  { davUser := "alice"
    keyId := 1
    certificate := some 1
    capabilityVersion := 12
    mnemonic := "word"
    shouldSkipE2eeMetadataChecksumValidation := false }

/-- A concrete well-formed v2.0 metadata document for user alice. -/
def docV2 : MetaDoc :=
  { metadata :=
      { cipher :=
          { key := key16
            nonce := .raw [5]
            plain := { files := [], folders := [], keyChecksums := [Bytes.sha256 key16] } }
        nonce := .raw [5]
        authenticationTag := .gcmTag key16 (.raw [5]) }
    version := "2.0"
    users := [{ userId := "alice", certificatePem := some 1, encryptedMetadataKey := .asymEnc 1 key16 }]
    filedrop := none }

/-- The model obtained by parsing docV2 on the capability-1.2 account. -/
def parsedV2Model : FolderMetadata :=
  parseMetadata acctV12 (some (.v2 docV2)) RootEncryptedFolderInfo.makeDefault (.raw [9]) none

/-- C4 counterexample: a model parsed from a v2.0 document on an account
whose server capability advertises only 1.2 re-serializes at version 1.2 —
an actual downgrade below the parsed version. -/
theorem encryptedMetadata_downgrades_on_capability_regression :
    parsedV2Model.isMetadataValid = true ∧
    parsedV2Model.existingMetadataVersion = .version2_0 ∧
    (parsedV2Model.encryptedMetadata acctV12 (.raw [4]) (.raw [3])).1.isSome = true ∧
    (parsedV2Model.encryptedMetadata acctV12 (.raw [4])
      (.raw [3])).2.encryptedMetadataVersion = .version1_2 ∧
    MetadataVersion.lt .version1_2 .version2_0 = true := by
  decide

/-- C4 (amended): encryptedMetadata always serializes at
latestSupportedMetadataVersion(server capability); this is never older
than the version the model was parsed from provided the capability still
covers that version — when the capability regresses below the parsed
version, the serialization downgrades along with it. -/
theorem encryptedMetadata_no_downgrade_unless_capability_regressed
    (m : FolderMetadata) (acct : Account) (iv fk : Bytes)
    (h : (m.encryptedMetadata acct iv fk).1.isSome = true)
    (hcap : m.existingMetadataVersion.le
      (latestSupportedMetadataVersion acct.capabilityVersion) = true) :
    (m.encryptedMetadata acct iv fk).2.encryptedMetadataVersion =
      latestSupportedMetadataVersion acct.capabilityVersion ∧
    m.existingMetadataVersion.le
      ((m.encryptedMetadata acct iv fk).2.encryptedMetadataVersion) = true := by
  have hv := encryptedMetadata_version_on_success m acct iv fk h
  exact ⟨hv, by rw [hv]; exact hcap⟩

/-- A concrete valid root model with one user entry, serializable at
v2.0. -/
def rootModelWithUser : FolderMetadata :=
  { isRootEncryptedFolder := true
    metadataKeyForEncryption := .raw [1]
    metadataKeyForDecryption := .raw [1]
    keyChecksums := [Bytes.sha256 (.raw [1])]
    folderUsers :=
      [("alice", { userId := "alice", certificatePem := some 1, encryptedMetadataKey := .asymEnc 1 (.raw [1]) })]
    isMetadataValid := true
    existingMetadataVersion := .version2_0 }

/-- C4 witness: a v2.0 model on a v2.0-capable account serializes at v2.0,
no downgrade. -/
theorem encryptedMetadata_no_downgrade_witness :
    (rootModelWithUser.encryptedMetadata acctV2 (.raw [4]) (.raw [3])).2.encryptedMetadataVersion =
      latestSupportedMetadataVersion acctV2.capabilityVersion ∧
    MetadataVersion.le rootModelWithUser.existingMetadataVersion
      ((rootModelWithUser.encryptedMetadata acctV2 (.raw [4])
        (.raw [3])).2.encryptedMetadataVersion) = true :=
  encryptedMetadata_no_downgrade_unless_capability_regressed rootModelWithUser acctV2
    (.raw [4]) (.raw [3]) (by decide) (by decide)

/-- A v2.0 document whose metadata ciphertext was produced under a key
different from the one wrapped for alice: symmetric decryption
authenticates and fails (auth-tag mismatch). -/
def docV2BadTag : MetaDoc :=
  { metadata :=
      { cipher :=
          { key := .raw [9]
            nonce := .raw [5]
            plain := { files := [], folders := [], keyChecksums := [] } }
        nonce := .raw [5]
        authenticationTag := .gcmTag (.raw [9]) (.raw [5]) }
    version := "2.0"
    users := [{ userId := "alice", certificatePem := some 1, encryptedMetadataKey := .asymEnc 1 key16 }]
    filedrop := none }

/-- C2 counterexample: parsing a v2.0 document whose symmetric decryption
fails produces a model whose files() is empty and whose internal
_isMetadataValid flag is false, but isValid() returns TRUE because the
metadata key had already been unwrapped — isValid() tests key
availability, not parse success. -/
theorem parse_auth_tag_mismatch_isValid_true :
    (parseMetadata acctV2 (some (.v2 docV2BadTag))
      RootEncryptedFolderInfo.makeDefault (.raw [9]) none).isValid = true ∧
    (parseMetadata acctV2 (some (.v2 docV2BadTag))
      RootEncryptedFolderInfo.makeDefault (.raw [9]) none).isMetadataValid = false ∧
    (parseMetadata acctV2 (some (.v2 docV2BadTag))
      RootEncryptedFolderInfo.makeDefault (.raw [9]) none).files = [] := by
  decide

/-- Helper: parsing a v2.0-version document for the root path dispatches
straight into setupExistingMetadata on the constructor state. -/
theorem parseMetadata_v2_root (acct : Account) (doc : MetaDoc)
    (rootInfo : RootEncryptedFolderInfo) (fk : Bytes) (rf : Option MetaOutput)
    (hroot : rootInfo.path = "/") (hv : versionFromString doc.version = .version2_0) :
    parseMetadata acct (some (.v2 doc)) rootInfo fk rf =
      (initialState (some (.v2 doc)) rootInfo).setupExistingMetadata acct doc := by
  unfold parseMetadata FolderMetadata.setupMetadata
  simp [initialState, setupVersionFromExistingMetadata, hroot, hv,
    MetadataVersion.lt, MetadataVersion.toInt]

/-- Helper: the v2.0 parser on a pristine constructor state, when the
metadata blob fails to decrypt after the user's key was unwrapped: the
file list stays empty, the valid flag stays false, yet isValid() is true
because a decryption key is available. -/
theorem setupExisting_decrypt_failure (m : FolderMetadata) (acct : Account)
    (doc : MetaDoc) (fu : FolderUser) (K : Bytes)
    (hroot : m.isRootEncryptedFolder = true) (hfu : m.folderUsers = [])
    (hfiles : m.files = []) (hflag : m.isMetadataValid = false)
    (hmk : m.metadataKeys = [])
    (hu : assocLookup acct.davUser
      (doc.users.foldl (fun acc (u : FolderUser) => assocInsert u.userId u acc) []) = some fu)
    (hk : decryptDataWithPrivateKey acct.keyId fu.encryptedMetadataKey = K)
    (hKne : K.isEmpty = false)
    (hfail : decryptThenUnGzipData K doc.metadata.cipher doc.metadata.nonce = none) :
    (m.setupExistingMetadata acct doc).files = [] ∧
    (m.setupExistingMetadata acct doc).isMetadataValid = false ∧
    (m.setupExistingMetadata acct doc).isValid = true := by
  have husers : doc.users.isEmpty = false := by
    cases hus : doc.users with
    | nil => rw [hus] at hu; simp [assocLookup] at hu
    | cons a l => simp
  unfold FolderMetadata.setupExistingMetadata
  cases hfd : doc.filedrop <;>
    simp_all [FolderMetadata.isValid, hu, hk, hKne, hfail, husers, hfu]

/-- C2 (amended): for every v2.0 document whose symmetric metadata
decryption fails after the current user's metadata key was successfully
unwrapped, parse never populates the file list (files() is empty) and
leaves the internal _isMetadataValid flag false — so mutation and
re-serialization are refused — while isValid() reports true since it only
tests key availability; parse is a total function and throws nothing. -/
theorem parse_v2_decrypt_failure (acct : Account) (rootInfo : RootEncryptedFolderInfo)
    (doc : MetaDoc) (fu : FolderUser) (K fk : Bytes) (rf : Option MetaOutput)
    (hroot : rootInfo.path = "/")
    (hv : versionFromString doc.version = .version2_0)
    (hu : assocLookup acct.davUser
      (doc.users.foldl (fun acc (u : FolderUser) => assocInsert u.userId u acc) []) = some fu)
    (hk : decryptDataWithPrivateKey acct.keyId fu.encryptedMetadataKey = K)
    (hKne : K.isEmpty = false)
    (hfail : decryptThenUnGzipData K doc.metadata.cipher doc.metadata.nonce = none) :
    (parseMetadata acct (some (.v2 doc)) rootInfo fk rf).files = [] ∧
    (parseMetadata acct (some (.v2 doc)) rootInfo fk rf).isMetadataValid = false ∧
    (parseMetadata acct (some (.v2 doc)) rootInfo fk rf).isValid = true := by
  rw [parseMetadata_v2_root acct doc rootInfo fk rf hroot hv]
  exact setupExisting_decrypt_failure (initialState (some (.v2 doc)) rootInfo) acct doc fu K
    (by simp [initialState, hroot]) rfl rfl rfl rfl hu hk hKne hfail

/-- C2 witness: the amended behavior at the concrete bad-tag document. -/
theorem parse_v2_decrypt_failure_witness :
    (parseMetadata acctV2 (some (.v2 docV2BadTag))
      RootEncryptedFolderInfo.makeDefault (.raw [8]) none).files = [] ∧
    (parseMetadata acctV2 (some (.v2 docV2BadTag))
      RootEncryptedFolderInfo.makeDefault (.raw [8]) none).isMetadataValid = false ∧
    (parseMetadata acctV2 (some (.v2 docV2BadTag))
      RootEncryptedFolderInfo.makeDefault (.raw [8]) none).isValid = true :=
  parse_v2_decrypt_failure acctV2 RootEncryptedFolderInfo.makeDefault docV2BadTag
    { userId := "alice", certificatePem := some 1, encryptedMetadataKey := .asymEnc 1 key16 }
    key16 (.raw [8]) none rfl (by decide) (by decide) (by decide) (by decide) (by decide)

/-- Helper: terminal-callback count of a folderUnlocked emission, driven
by the live connection counts. -/
theorem countTerminal_emitFolderUnlocked (s : JobState) (st : Int) :
    countTerminal (emitFolderUnlocked s st).2 =
      (if 1 ≤ s.connSuccess then 1 else 0) + (if 1 ≤ s.connError then 1 else 0) := by
  simp only [emitFolderUnlocked, slotEmitUploadSuccess, slotEmitUploadError]
  split_ifs <;> simp_all [countTerminal, isTerminalEvent]

/-- Helper: a lock request is not a terminal callback. -/
theorem countTerminal_cons_lockRequest (l : List JobEvent) :
    countTerminal (JobEvent.lockRequest :: l) = countTerminal l := by
  simp [countTerminal, List.filter, isTerminalEvent]

/-- Helper: an unlock request is not a terminal callback. -/
theorem countTerminal_cons_unlockRequest (l : List JobEvent) :
    countTerminal (JobEvent.unlockRequest :: l) = countTerminal l := by
  simp [countTerminal, List.filter, isTerminalEvent]

/-- Helper: a store request is not a terminal callback. -/
theorem countTerminal_cons_storeRequest (l : List JobEvent) :
    countTerminal (JobEvent.storeMetadataRequest :: l) = countTerminal l := by
  simp [countTerminal, List.filter, isTerminalEvent]

/-- Helper: an update request is not a terminal callback. -/
theorem countTerminal_cons_updateRequest (l : List JobEvent) :
    countTerminal (JobEvent.updateMetadataRequest :: l) = countTerminal l := by
  simp [countTerminal, List.filter, isTerminalEvent]

/-- Helper: an unlock after a successful upload (one success connection
pending) ends in exactly one terminal callback. -/
theorem countTerminal_unlock_success (s : JobState) (ul : Option Int)
    (hrun : s.isUnlockRunning = false) (hlocked : s.isFolderLocked = true)
    (hkeep : s.keepLockedAfterUpdate = false) (hcs : s.connSuccess = 1)
    (hce : s.connError = 0) :
    countTerminal (unlockFolder s true ul).2 = 1 := by
  have hemit : ∀ (t : JobState) (st : Int), t.connSuccess = 2 → t.connError = 0 →
      countTerminal (emitFolderUnlocked t st).2 = 1 := by
    intro t st h1 h2
    rw [countTerminal_emitFolderUnlocked, h1, h2]
    decide
  simp only [unlockFolder]
  simp [hrun, hlocked, hkeep]
  cases ul <;> split_ifs <;>
    first
      | (apply hemit <;> simp [hcs, hce])
      | (rw [countTerminal_cons_unlockRequest]
         apply hemit <;> simp [hcs, hce])

/-- Helper: an unlock after a failed upload (one error connection pending)
ends in exactly one terminal callback. -/
theorem countTerminal_unlock_error (s : JobState) (ul : Option Int)
    (hrun : s.isUnlockRunning = false) (hlocked : s.isFolderLocked = true)
    (hkeep : s.keepLockedAfterUpdate = false) (hcs : s.connSuccess = 0)
    (hce : s.connError = 1) :
    countTerminal (unlockFolder s false ul).2 = 1 := by
  have hemit : ∀ (t : JobState) (st : Int), t.connSuccess = 0 → t.connError = 2 →
      countTerminal (emitFolderUnlocked t st).2 = 1 := by
    intro t st h1 h2
    rw [countTerminal_emitFolderUnlocked, h1, h2]
    decide
  simp only [unlockFolder]
  simp [hrun, hlocked, hkeep]
  cases ul <;> split_ifs <;>
    first
      | (apply hemit <;> simp [hcs, hce])
      | (rw [countTerminal_cons_unlockRequest]
         apply hemit <;> simp [hcs, hce])

/-- Helper: the upload success slot emits exactly one terminal callback,
whatever the unlock outcome. -/
theorem countTerminal_slotUploadSuccess (s : JobState) (ul : Option Int)
    (hcs : s.connSuccess = 0) (hce : s.connError = 0)
    (hrun : s.isUnlockRunning = false) :
    countTerminal (slotUploadMetadataSuccess s ul).2 = 1 := by
  simp only [slotUploadMetadataSuccess, slotEmitUploadSuccess]
  split_ifs with h
  · simp [countTerminal, isTerminalEvent]
  · rw [countTerminal_unlock_success] <;> simp_all

/-- Helper: the upload error slot emits exactly one terminal callback,
whatever the unlock outcome. -/
theorem countTerminal_slotUploadError (s : JobState) (code : Int) (ul : Option Int)
    (hcs : s.connSuccess = 0) (hce : s.connError = 0)
    (hrun : s.isUnlockRunning = false) :
    countTerminal (slotUploadMetadataError s code ul).2 = 1 := by
  simp only [slotUploadMetadataError]
  split_ifs with h
  · rw [countTerminal_unlock_error] <;> simp_all
  · simp [countTerminal, isTerminalEvent]

/-- Helper: the upload phase emits exactly one terminal callback. -/
theorem countTerminal_startUpload (s : JobState) (uo ul : Option Int)
    (hcs : s.connSuccess = 0) (hce : s.connError = 0)
    (hrun : s.isUnlockRunning = false) :
    countTerminal (startUploadMetadata s uo ul).2 = 1 := by
  simp only [startUploadMetadata]
  cases uo <;> split_ifs <;>
    (try simp only [countTerminal_cons_storeRequest, countTerminal_cons_updateRequest]) <;>
    first
      | (rw [countTerminal_slotUploadError] <;> simp_all)
      | (rw [countTerminal_slotUploadSuccess] <;> simp_all)

/-- C6: one run of the upload operation — covering an existing or fresh
lock, lock denial, upload success or failure, and unlock success or
failure — emits exactly one terminal completion callback
(uploadFinished / fetchFinished). -/
theorem upload_terminal_exactly_once (s : JobState) (keepLock : Bool)
    (lo : LockOutcome) (uo ul : Option Int)
    (hcs : s.connSuccess = 0) (hce : s.connError = 0)
    (hrun : s.isUnlockRunning = false) :
    countTerminal (uploadMetadata s keepLock lo uo ul).2 = 1 := by
  simp only [uploadMetadata, lockFolder, validateBeforeLock]
  cases lo <;> split_ifs <;>
    (try simp only [countTerminal_cons_lockRequest]) <;>
    first
      | (rw [countTerminal_startUpload] <;> simp_all)
      | simp_all [countTerminal, isTerminalEvent]

/-- C6 witness: a locked job whose upload succeeds and whose unlock then
fails with HTTP 500 still completes with exactly one terminal callback. -/
theorem upload_terminal_exactly_once_witness :
    countTerminal
      (uploadMetadata
        { folderToken := .raw [1], isFolderLocked := true,
          folderMetadata := some rootModelWithUser }
        false (.granted (.raw [1])) none (some 500)).2 = 1 :=
  upload_terminal_exactly_once
    { folderToken := .raw [1], isFolderLocked := true,
      folderMetadata := some rootModelWithUser }
    false (.granted (.raw [1])) none (some 500) rfl rfl rfl

/-- Helper: inserting under a fresh key appends at the end. -/
theorem assocInsert_of_lookup_none {α : Type} (k : String) (v : α)
    (l : List (String × α)) (h : assocLookup k l = none) :
    assocInsert k v l = l ++ [(k, v)] := by
  induction l with
  | nil => rfl
  | cons p rest ih =>
    obtain ⟨k0, v0⟩ := p
    simp only [assocLookup] at h
    by_cases hk : k0 = k
    · simp [hk] at h
    · simp only [assocInsert, hk, if_false, List.cons_append, List.cons.injEq, true_and]
      exact ih (by simpa [hk] using h)

/-- Helper: lookup distributes over append when absent on the left. -/
theorem assocLookup_append_of_none {α : Type} (k : String) (l1 l2 : List (String × α))
    (h : assocLookup k l1 = none) :
    assocLookup k (l1 ++ l2) = assocLookup k l2 := by
  induction l1 with
  | nil => rfl
  | cons p rest ih =>
    obtain ⟨k0, v0⟩ := p
    simp only [assocLookup] at h
    by_cases hk : k0 = k
    · simp [hk] at h
    · simp only [List.cons_append, assocLookup, hk, if_false]
      exact ih (by simpa [hk] using h)

/-- Helper: rebuilding a user hash by folding its serialized values over
assocInsert reproduces the hash, provided each stored user's id matches
its key, the keys are distinct, and none collides with the
accumulator. -/
theorem foldUsers_rebuild (l : List (String × FolderUser)) (acc : List (String × FolderUser))
    (hids : ∀ p ∈ l, (p.2 : FolderUser).userId = p.1)
    (hdisj : ∀ p ∈ l, assocLookup p.1 acc = none)
    (hnodup : (l.map (·.1)).Nodup) :
    (l.map (·.2)).foldl (fun a (u : FolderUser) => assocInsert u.userId u a) acc =
      acc ++ l := by
  induction l generalizing acc with
  | nil => simp
  | cons p rest ih =>
    obtain ⟨k, u⟩ := p
    simp only [List.map_cons, List.foldl_cons]
    have hid : u.userId = k := hids (k, u) (by simp)
    rw [hid, assocInsert_of_lookup_none k u acc (hdisj (k, u) (by simp))]
    rw [ih (acc ++ [(k, u)])]
    · simp
    · exact fun q hq => hids q (by simp [hq])
    · intro q hq
      have hne : q.1 ≠ k := by
        intro he
        have hkmem : k ∈ rest.map (·.1) := he ▸ List.mem_map_of_mem (·.1) hq
        exact (List.nodup_cons.mp (by simpa using hnodup)).1 hkmem
      rw [assocLookup_append_of_none q.1 acc [(k, u)] (hdisj q (by simp [hq]))]
      simp [assocLookup, hne.symm]
    · exact (List.nodup_cons.mp (by simpa using hnodup)).2

/-- Helper: taking the declared key size of a full-size key is the
identity. -/
theorem bytes_take_16_of_size_16 (b : Bytes) (h : b.size = 16) :
    b.take 16 = b := by
  cases b <;> simp_all [Bytes.size, Bytes.take]

/-- Helper: the keyChecksums re-insertion fold preserves accumulator
membership. -/
theorem checksums_fold_mono (l : List Bytes) (acc : List Bytes) (a : Bytes)
    (h : a ∈ acc) :
    a ∈ l.foldl (fun acc c => if !c.isEmpty then setInsert c acc else acc) acc := by
  induction l generalizing acc with
  | nil => exact h
  | cons c rest ih =>
    simp only [List.foldl_cons]
    split_ifs with hc
    · exact ih (setInsert c acc) (mem_setInsert.mpr (Or.inr h))
    · exact ih acc h

/-- Helper: every nonempty checksum of the source list survives the
re-insertion fold. -/
theorem checksums_fold_mem (l : List Bytes) (acc : List Bytes) (a : Bytes)
    (ha : a.isEmpty = false) (h : a ∈ l) :
    a ∈ l.foldl (fun acc c => if !c.isEmpty then setInsert c acc else acc) acc := by
  induction l generalizing acc with
  | nil => cases h
  | cons c rest ih =>
    simp only [List.foldl_cons]
    rcases List.mem_cons.mp h with rfl | hrest
    · rw [if_pos (by simp [ha])]
      exact checksums_fold_mono rest (setInsert a acc) a (mem_setInsert.mpr (Or.inl rfl))
    · split_ifs with hc
      · exact ih (setInsert c acc) hrest
      · exact ih acc hrest

/-- The "keyed by original filename" view of a file list. -/
def findByOriginal (files : List EncryptedFile) (name : String) : Option EncryptedFile :=
  files.find? (fun f => f.originalFilename = name)

/-- Helper: under distinct original filenames, lookup by original filename
finds exactly the member record. -/
theorem findByOriginal_of_mem (l : List EncryptedFile) (f : EncryptedFile)
    (hmem : f ∈ l) (hnodup : (l.map (·.originalFilename)).Nodup) :
    findByOriginal l f.originalFilename = some f := by
  induction l with
  | nil => cases hmem
  | cons g rest ih =>
    simp only [List.map_cons, List.nodup_cons] at hnodup
    by_cases hg : g.originalFilename = f.originalFilename
    · have hf : f = g := by
        rcases List.mem_cons.mp hmem with rfl | hf
        · rfl
        · exact absurd (hg ▸ List.mem_map_of_mem (·.originalFilename) hf) hnodup.1
      simp [findByOriginal, List.find?, hg, hf]
    · have hf : f ∈ rest := by
        rcases List.mem_cons.mp hmem with rfl | hf
        · exact absurd rfl hg
        · exact hf
      simpa [findByOriginal, List.find?, hg] using ih hf hnodup.2

/-- Helper: the serializer loop splits the file list into the files object
(non-directories, in order) and the folders object (directories, in
order), provided the encrypted filenames are distinct. -/
theorem buildFilesFolders_go (files : List EncryptedFile)
    (accF : List (String × FileJson)) (accD : List (String × String))
    (hdF : ∀ f ∈ files, assocLookup f.encryptedFilename accF = none)
    (hdD : ∀ f ∈ files, assocLookup f.encryptedFilename accD = none)
    (hnodup : (files.map (·.encryptedFilename)).Nodup) :
    files.foldl
      (fun acc f =>
        if isDirectoryMimetype f then
          (acc.1, assocInsert f.encryptedFilename f.originalFilename acc.2)
        else
          (assocInsert f.encryptedFilename (convertFileToJsonObject f) acc.1, acc.2))
      (accF, accD) =
      (accF ++ (files.filter (fun f => !isDirectoryMimetype f)).map
        (fun f => (f.encryptedFilename, convertFileToJsonObject f)),
       accD ++ (files.filter (fun f => isDirectoryMimetype f)).map
        (fun f => (f.encryptedFilename, f.originalFilename))) := by
  induction files generalizing accF accD with
  | nil => simp
  | cons f rest ih =>
    simp only [List.map_cons, List.nodup_cons] at hnodup
    have hfresh : ∀ g ∈ rest, g.encryptedFilename ≠ f.encryptedFilename := by
      intro g hg he
      exact hnodup.1 (he ▸ List.mem_map_of_mem (·.encryptedFilename) hg)
    simp only [List.foldl_cons]
    by_cases hdir : isDirectoryMimetype f
    · rw [if_pos hdir]
      rw [assocInsert_of_lookup_none _ _ accD (hdD f (by simp))]
      rw [ih accF (accD ++ [(f.encryptedFilename, f.originalFilename)])
        (fun g hg => hdF g (by simp [hg]))
        (fun g hg => by
          rw [assocLookup_append_of_none _ accD _ (hdD g (by simp [hg]))]
          simp [assocLookup, (hfresh g hg).symm])
        hnodup.2]
      simp [hdir]
    · rw [if_neg hdir]
      rw [assocInsert_of_lookup_none _ _ accF (hdF f (by simp))]
      rw [ih (accF ++ [(f.encryptedFilename, convertFileToJsonObject f)]) accD
        (fun g hg => by
          rw [assocLookup_append_of_none _ accF _ (hdF g (by simp [hg]))]
          simp [assocLookup, (hfresh g hg).symm])
        (fun g hg => hdD g (by simp [hg]))
        hnodup.2]
      simp [hdir]

/-- Helper: buildFilesFolders in closed form. -/
theorem buildFilesFolders_form (files : List EncryptedFile)
    (hnodup : (files.map (·.encryptedFilename)).Nodup) :
    buildFilesFolders files =
      ((files.filter (fun f => !isDirectoryMimetype f)).map
        (fun f => (f.encryptedFilename, convertFileToJsonObject f)),
       (files.filter (fun f => isDirectoryMimetype f)).map
        (fun f => (f.encryptedFilename, f.originalFilename))) := by
  unfold buildFilesFolders
  rw [buildFilesFolders_go files [] [] (fun f _ => rfl) (fun f _ => rfl) hnodup]
  simp

/-- Helper: parsing back the per-file JSON object of a non-directory
record with a nonempty original filename restores the record exactly. -/
theorem parse_convert_id (f : EncryptedFile) (hname : f.originalFilename ≠ "")
    (hnd : isDirectoryMimetype f = false) :
    parseEncryptedFileFromJson f.encryptedFilename (convertFileToJsonObject f) = f := by
  have hmt : f.mimetype ≠ "inode/directory" := by
    intro h
    simp [isDirectoryMimetype, h] at hnd
  unfold parseEncryptedFileFromJson convertFileToJsonObject
  simp [hname, hmt]

/-- Helper: the v2.0 parser's files loop over serialized non-directory
records appends exactly those records. -/
theorem parseFiles_fold (l : List EncryptedFile) (acc : List EncryptedFile)
    (h : ∀ f ∈ l, f.originalFilename ≠ "" ∧ isDirectoryMimetype f = false) :
    (l.map (fun f => (f.encryptedFilename, convertFileToJsonObject f))).foldl
      (fun acc kv =>
        let parsedEncryptedFile := parseEncryptedFileFromJson kv.1 kv.2
        if parsedEncryptedFile.originalFilename ≠ "" then acc ++ [parsedEncryptedFile]
        else acc)
      acc = acc ++ l := by
  induction l generalizing acc with
  | nil => simp
  | cons f rest ih =>
    have hp := parse_convert_id f (h f (by simp)).1 (h f (by simp)).2
    have hname := (h f (by simp)).1
    simp only [List.map_cons, List.foldl_cons, hp, hname, ne_eq, not_false_eq_true,
      if_true]
    rw [ih (acc ++ [f]) (fun g hg => h g (by simp [hg]))]
    simp

/-- Helper: the v2.0 parser's folders loop over serialized directory
entries appends the corresponding name-pair records. -/
theorem parseFolders_fold (l : List EncryptedFile) (acc : List EncryptedFile)
    (h : ∀ f ∈ l, f.originalFilename ≠ "") :
    (l.map (fun f => (f.encryptedFilename, f.originalFilename))).foldl
      (fun acc kv =>
        if kv.2 ≠ "" then
          acc ++ [{ encryptedFilename := kv.1, originalFilename := kv.2 : EncryptedFile }]
        else acc)
      acc =
      acc ++ l.map (fun f =>
        { encryptedFilename := f.encryptedFilename
          originalFilename := f.originalFilename : EncryptedFile }) := by
  induction l generalizing acc with
  | nil => simp
  | cons f rest ih =>
    have hname := h f (by simp)
    simp only [List.map_cons, List.foldl_cons]
    rw [if_pos hname]
    refine (ih _ (fun g hg => h g (by simp [hg]))).trans ?_
    simp

/-- The v2.0 document encryptedMetadata produces for a valid root model
with users and checksums (closed form, proved below). -/
def mkV2Doc (m : FolderMetadata) (acct : Account) (iv : Bytes) : MetaDoc :=
  { metadata :=
      { cipher :=
          { key := m.metadataKeyForEncryption
            nonce := iv
            plain :=
              { files := (buildFilesFolders m.files).1
                folders := (buildFilesFolders m.files).2
                keyChecksums := m.keyChecksums } }
        nonce := iv
        authenticationTag := .gcmTag m.metadataKeyForEncryption iv }
    version := capabilityVersionString acct.capabilityVersion
    users := m.folderUsers.map (·.2)
    filedrop :=
      if !m.fileDropCipherTextEncryptedAndBase64.isEmpty then
        some { cipherText := m.fileDropCipherTextEncryptedAndBase64
               nonce := m.fileDropMetadataNonceBase64
               authenticationTag := m.fileDropMetadataAuthenticationTag }
      else none }

/-- Helper: on a valid root model with users, a v2-capable server and a
nonempty key and checksum set, encryptedMetadata succeeds with the closed
form document and records version 2.0. -/
theorem encryptedMetadata_v2_form (m : FolderMetadata) (acct : Account) (iv fk : Bytes)
    (hvalid : m.isMetadataValid = true) (hroot : m.isRootEncryptedFolder = true)
    (hlatest : latestSupportedMetadataVersion acct.capabilityVersion = .version2_0)
    (husers : m.folderUsers ≠ []) (hkne : m.metadataKeyForEncryption.isEmpty = false)
    (hks : m.keyChecksums ≠ []) :
    m.encryptedMetadata acct iv fk =
      (some (.v2 (mkV2Doc m acct iv)),
       { m with encryptedMetadataVersion := .version2_0 }) := by
  unfold FolderMetadata.encryptedMetadata mkV2Doc
  rw [hlatest]
  simp [hvalid, hroot, husers, hkne, hks, MetadataVersion.lt, MetadataVersion.toInt]

/-- Helper: the full success walk of the v2.0 parser over the closed-form
document: users rebuilt, key unwrapped, blob decrypted, checksums
verified, files and folders restored. -/
theorem setupExisting_roundtrip (m : FolderMetadata) (acct : Account) (iv : Bytes)
    (m0 : FolderMetadata) (du : FolderUser)
    (h0root : m0.isRootEncryptedFolder = true)
    (h0fu : m0.folderUsers = [])
    (h0files : m0.files = [])
    (h0ver : m0.existingMetadataVersion = .version2_0)
    (hids : ∀ p ∈ m.folderUsers, (p.2 : FolderUser).userId = p.1)
    (hukeys : (m.folderUsers.map (·.1)).Nodup)
    (hdav : assocLookup acct.davUser m.folderUsers = some du)
    (hwrap : du.encryptedMetadataKey = .asymEnc acct.keyId m.metadataKeyForEncryption)
    (hklen : m.metadataKeyForEncryption.size = 16)
    (hkne : m.metadataKeyForEncryption.isEmpty = false)
    (hsha : calcSha256 m.metadataKeyForEncryption ∈ m.keyChecksums)
    (hnames : ∀ f ∈ m.files, f.originalFilename ≠ "")
    (hencNodup : (m.files.map (·.encryptedFilename)).Nodup) :
    (m0.setupExistingMetadata acct (mkV2Doc m acct iv)).isMetadataValid = true ∧
    (m0.setupExistingMetadata acct (mkV2Doc m acct iv)).folderUsers = m.folderUsers ∧
    (m0.setupExistingMetadata acct (mkV2Doc m acct iv)).files =
      m.files.filter (fun f => !isDirectoryMimetype f) ++
        (m.files.filter (fun f => isDirectoryMimetype f)).map (fun f =>
          { encryptedFilename := f.encryptedFilename
            originalFilename := f.originalFilename }) := by
  have husers : m.folderUsers ≠ [] := by
    intro h
    rw [h] at hdav
    simp [assocLookup] at hdav
  have husersB : ((mkV2Doc m acct iv).users).isEmpty = false := by
    simp [mkV2Doc, husers]
  have hksE : m.keyChecksums.isEmpty = false := by
    cases hks0 : m.keyChecksums with
    | nil => rw [hks0] at hsha; cases hsha
    | cons a l => simp
  have hrebuild : ((mkV2Doc m acct iv).users).foldl
      (fun acc (u : FolderUser) => assocInsert u.userId u acc) [] =
      m.folderUsers := by
    show (m.folderUsers.map (·.2)).foldl
      (fun a (u : FolderUser) => assocInsert u.userId u a) [] = m.folderUsers
    rw [foldUsers_rebuild m.folderUsers [] hids (fun p _ => rfl) hukeys]
    simp
  have hunwrap : decryptDataWithPrivateKey acct.keyId du.encryptedMetadataKey =
      m.metadataKeyForEncryption := by
    rw [hwrap]
    simp [decryptDataWithPrivateKey]
  have hdecrypt : decryptThenUnGzipData m.metadataKeyForEncryption
      (mkV2Doc m acct iv).metadata.cipher (mkV2Doc m acct iv).metadata.nonce =
      some { files := (buildFilesFolders m.files).1
             folders := (buildFilesFolders m.files).2
             keyChecksums := m.keyChecksums } := by
    simp [mkV2Doc, decryptThenUnGzipData]
  have hsha2 : calcSha256 (m.metadataKeyForEncryption.take 16) ∈
      m.keyChecksums.foldl
        (fun acc c => if !c.isEmpty then setInsert c acc else acc) [] := by
    rw [bytes_take_16_of_size_16 _ hklen]
    exact checksums_fold_mem m.keyChecksums [] _ rfl hsha
  have hbuild := buildFilesFolders_form m.files hencNodup
  have hcont : (List.foldl (fun acc c => if (!c.isEmpty) = true then setInsert c acc
      else acc) [] m.keyChecksums).contains
        (calcSha256 (m.metadataKeyForEncryption.take 16)) = true := by
    simpa using hsha2
  have hdec1616 : (decide ((16 : Nat) < 16)) = false := rfl
  have hlt22 : MetadataVersion.lt .version2_0 .version2_0 = false := rfl
  have hfilesfold := parseFiles_fold (m.files.filter (fun f => !isDirectoryMimetype f)) []
    (fun f hf => ⟨hnames f (List.mem_of_mem_filter hf),
      by simpa using (List.mem_filter.mp hf).2⟩)
  have hfoldersfold := parseFolders_fold (m.files.filter (fun f => isDirectoryMimetype f))
    (m.files.filter (fun f => !isDirectoryMimetype f))
    (fun f hf => hnames f (List.mem_of_mem_filter hf))
  unfold FolderMetadata.setupExistingMetadata
  cases hfd : (mkV2Doc m acct iv).filedrop <;>
    simp only [hfd, husersB, h0root, h0fu, h0files, h0ver, Bool.not_true, Bool.not_false,
      Bool.not_not, Bool.false_eq_true, Bool.and_self, Bool.or_false, Bool.false_or,
      Bool.true_and, Bool.and_false, Bool.and_true, Bool.or_self, Bool.true_or,
      Bool.or_true, if_false, if_true, hrebuild, hdav, hunwrap, hkne, hdecrypt, hksE,
      FolderMetadata.verifyMetadataKey, hklen, hdec1616, hlt22, hcont, hbuild,
      List.nil_append, hfilesfold, hfoldersfold] <;>
    exact ⟨trivial, trivial, trivial⟩

/-- C1: round trip — parsing the document produced by encryptedMetadata
with the same account reproduces the Folder User set exactly and, keyed by
original filename, every Encrypted File Record: non-directory records come
back field-for-field identical, directory entries come back as the
encrypted-name/original-name pair the wire format stores for them (spec
section 3), and no extra records appear.  Hypotheses: a valid root model
on a v2.0 server whose stored user entries are keyed consistently, whose
current user's envelope wraps the current 16-byte metadata key, whose key
checksum is registered, and whose filenames are nonempty and distinct. -/
theorem encryptedMetadata_parse_roundtrip (m : FolderMetadata) (acct : Account)
    (iv fk fk2 : Bytes) (rf : Option MetaOutput) (du : FolderUser)
    (hvalid : m.isMetadataValid = true)
    (hroot : m.isRootEncryptedFolder = true)
    (hcap : acct.capabilityVersion = 20)
    (hids : ∀ p ∈ m.folderUsers, (p.2 : FolderUser).userId = p.1)
    (hukeys : (m.folderUsers.map (·.1)).Nodup)
    (hdav : assocLookup acct.davUser m.folderUsers = some du)
    (hwrap : du.encryptedMetadataKey = .asymEnc acct.keyId m.metadataKeyForEncryption)
    (hklen : m.metadataKeyForEncryption.size = 16)
    (hkne : m.metadataKeyForEncryption.isEmpty = false)
    (hsha : calcSha256 m.metadataKeyForEncryption ∈ m.keyChecksums)
    (hnames : ∀ f ∈ m.files, f.originalFilename ≠ "")
    (hencNodup : (m.files.map (·.encryptedFilename)).Nodup)
    (horigNodup : (m.files.map (·.originalFilename)).Nodup) :
    (parseMetadata acct (m.encryptedMetadata acct iv fk).1
        RootEncryptedFolderInfo.makeDefault fk2 rf).isMetadataValid = true ∧
    (parseMetadata acct (m.encryptedMetadata acct iv fk).1
        RootEncryptedFolderInfo.makeDefault fk2 rf).folderUsers = m.folderUsers ∧
    (∀ f ∈ m.files, isDirectoryMimetype f = false →
      findByOriginal (parseMetadata acct (m.encryptedMetadata acct iv fk).1
        RootEncryptedFolderInfo.makeDefault fk2 rf).files f.originalFilename = some f) ∧
    (∀ f ∈ m.files, isDirectoryMimetype f = true →
      findByOriginal (parseMetadata acct (m.encryptedMetadata acct iv fk).1
        RootEncryptedFolderInfo.makeDefault fk2 rf).files f.originalFilename =
        some { encryptedFilename := f.encryptedFilename
               originalFilename := f.originalFilename }) ∧
    (∀ g ∈ (parseMetadata acct (m.encryptedMetadata acct iv fk).1
        RootEncryptedFolderInfo.makeDefault fk2 rf).files,
      ∃ f ∈ m.files, f.originalFilename = g.originalFilename) := by
  have husers : m.folderUsers ≠ [] := by
    intro h
    rw [h] at hdav
    simp [assocLookup] at hdav
  have hks : m.keyChecksums ≠ [] := List.ne_nil_of_mem hsha
  have hlatest : latestSupportedMetadataVersion acct.capabilityVersion = .version2_0 := by
    rw [hcap]
    decide
  have henc := encryptedMetadata_v2_form m acct iv fk hvalid hroot hlatest husers hkne hks
  have henc1 : (m.encryptedMetadata acct iv fk).1 = some (.v2 (mkV2Doc m acct iv)) := by
    rw [henc]
  have hv2 : versionFromString (mkV2Doc m acct iv).version = .version2_0 := by
    show versionFromString (capabilityVersionString acct.capabilityVersion) = _
    rw [hcap]
    decide
  rw [henc1, parseMetadata_v2_root acct (mkV2Doc m acct iv)
    RootEncryptedFolderInfo.makeDefault fk2 rf rfl hv2]
  have h0ver : (initialState (some (.v2 (mkV2Doc m acct iv)))
      RootEncryptedFolderInfo.makeDefault).existingMetadataVersion = .version2_0 := by
    simp [initialState, setupVersionFromExistingMetadata, hv2]
  have hsetup := setupExisting_roundtrip m acct iv
    (initialState (some (.v2 (mkV2Doc m acct iv))) RootEncryptedFolderInfo.makeDefault)
    du rfl rfl rfl h0ver hids hukeys hdav hwrap hklen hkne hsha hnames hencNodup
  have hperm : (m.files.filter (fun f => !isDirectoryMimetype f) ++
      m.files.filter (fun f => isDirectoryMimetype f)).Perm m.files := by
    have hp := List.filter_append_perm (fun f => !isDirectoryMimetype f) m.files
    simpa [Bool.not_not] using hp
  have hmapOrig : ((m.files.filter (fun f => !isDirectoryMimetype f) ++
        (m.files.filter (fun f => isDirectoryMimetype f)).map (fun f =>
          { encryptedFilename := f.encryptedFilename
            originalFilename := f.originalFilename : EncryptedFile })).map
          (·.originalFilename)) =
      ((m.files.filter (fun f => !isDirectoryMimetype f) ++
        m.files.filter (fun f => isDirectoryMimetype f)).map (·.originalFilename)) := by
    simp [List.map_append, List.map_map]
  have hnodupParsed : (((m.files.filter (fun f => !isDirectoryMimetype f) ++
      (m.files.filter (fun f => isDirectoryMimetype f)).map (fun f =>
        { encryptedFilename := f.encryptedFilename
          originalFilename := f.originalFilename : EncryptedFile }))).map
        (·.originalFilename)).Nodup := by
    rw [hmapOrig]
    exact ((hperm.map (·.originalFilename)).nodup_iff).mpr horigNodup
  refine ⟨hsetup.1, hsetup.2.1, ?_, ?_, ?_⟩
  · intro f hf hnd
    rw [hsetup.2.2]
    exact findByOriginal_of_mem _ f
      (List.mem_append_left _ (List.mem_filter.mpr ⟨hf, by simp [hnd]⟩)) hnodupParsed
  · intro f hf hdir
    rw [hsetup.2.2]
    exact findByOriginal_of_mem _
      { encryptedFilename := f.encryptedFilename, originalFilename := f.originalFilename }
      (List.mem_append_right _
        (List.mem_map_of_mem _ (List.mem_filter.mpr ⟨hf, by simp [hdir]⟩)))
      hnodupParsed
  · intro g hg
    rw [hsetup.2.2] at hg
    rcases List.mem_append.mp hg with hleft | hright
    · exact ⟨g, List.mem_of_mem_filter hleft, rfl⟩
    · rcases List.mem_map.mp hright with ⟨f, hfmem, hfg⟩
      exact ⟨f, List.mem_of_mem_filter hfmem, by rw [← hfg]⟩

/-- The folder-user entry of alice used by the roundtrip witness. -/
def aliceUser : FolderUser :=
  { userId := "alice", certificatePem := some 1, encryptedMetadataKey := .asymEnc 1 key16 }

/-- A regular file record for the roundtrip witness. -/
def fileA : EncryptedFile :=
  { encryptionKey := .raw [3], mimetype := "text/plain", initializationVector := .raw [4],
    authenticationTag := .raw [5], encryptedFilename := "encA", originalFilename := "a.txt" }

/-- A directory record for the roundtrip witness. -/
def dirD : EncryptedFile :=
  { encryptedFilename := "encD", originalFilename := "subdir",
    mimetype := "httpd/unix-directory" }

/-- A concrete valid root model with one user, one file and one
directory. -/
def roundtripModel : FolderMetadata :=
  { isRootEncryptedFolder := true
    metadataKeyForEncryption := key16
    metadataKeyForDecryption := key16
    keyChecksums := [Bytes.sha256 key16]
    folderUsers := [("alice", aliceUser)]
    files := [fileA, dirD]
    isMetadataValid := true
    existingMetadataVersion := .version2_0 }

/-- C1 witness: the roundtrip at a concrete model. -/
theorem encryptedMetadata_parse_roundtrip_witness :
    (parseMetadata acctV2 (roundtripModel.encryptedMetadata acctV2 (.raw [7]) (.raw [8])).1
      RootEncryptedFolderInfo.makeDefault (.raw [9]) none).isMetadataValid = true ∧
    (parseMetadata acctV2 (roundtripModel.encryptedMetadata acctV2 (.raw [7]) (.raw [8])).1
      RootEncryptedFolderInfo.makeDefault (.raw [9]) none).folderUsers =
        roundtripModel.folderUsers ∧
    findByOriginal (parseMetadata acctV2
        (roundtripModel.encryptedMetadata acctV2 (.raw [7]) (.raw [8])).1
        RootEncryptedFolderInfo.makeDefault (.raw [9]) none).files fileA.originalFilename =
      some fileA ∧
    findByOriginal (parseMetadata acctV2
        (roundtripModel.encryptedMetadata acctV2 (.raw [7]) (.raw [8])).1
        RootEncryptedFolderInfo.makeDefault (.raw [9]) none).files dirD.originalFilename =
      some { encryptedFilename := dirD.encryptedFilename
             originalFilename := dirD.originalFilename } := by
  have T := encryptedMetadata_parse_roundtrip roundtripModel acctV2 (.raw [7]) (.raw [8])
    (.raw [9]) none aliceUser (by decide) (by decide) (by decide) (by decide) (by decide)
    (by decide) (by decide) (by decide) (by decide) (by decide) (by decide) (by decide)
    (by decide)
  exact ⟨T.1, T.2.1, T.2.2.1 fileA (by decide) (by decide),
    T.2.2.2.1 dirD (by decide) (by decide)⟩

end E2ee
